import Mathlib

/-!
Verification of the VIbe backend (Elysia/TypeScript, in-memory stores).

Shallow embedding: each route handler becomes a pure Lean function from its
request parameters and the module-level store to a tagged response together
with the updated store.  JavaScript `Date` values are modelled as `Nat`
timestamps passed in as a `now` parameter, `crypto.randomUUID()` as a
`newId : String` parameter, and the JWT library (external to the repository)
as an abstract `BearerToken` that is either missing, invalid, or carries a
verified payload.  In-place mutation of an object found by `Array.find` is
modelled by `updateFirst`, which rewrites the first matching element of the
store and leaves everything else unchanged.
-/

namespace Vibe

/-- `apps/backend/src/shared/database.ts`: interface User. -/
structure User where
  id : String
  email : String
  username : String
  firstName : String
  lastName : String
  avatar : Option String := none
  bio : Option String := none
  location : Option String := none
  website : Option String := none
  createdAt : Nat
  updatedAt : Nat
deriving Repr, DecidableEq

/-- The payload signed into a JWT by the auth routes (`jwt.sign({userId, email})`). -/
structure JwtPayload where
  userId : String
  email : String
deriving Repr, DecidableEq

/-- Abstract view of the `@elysiajs/bearer` + `@elysiajs/jwt` pipeline (the
libraries are external to the repository): the Authorization header is
missing, carries a token `jwt.verify` rejects, or carries a token whose
verified payload is `p`. -/
inductive BearerToken where
  | missing
  | invalid
  | valid (payload : JwtPayload)
deriving Repr, DecidableEq

/-- Tagged handler response: the handlers return either a success object or
`{ error: true, message }`; they do not thread failure through exceptions. -/
inductive HResp (α : Type) where
  | ok (payload : α)
  | err (message : String)
deriving Repr, DecidableEq

/-- Rewrite the first element satisfying `p` with `f`; the model of mutating,
through a reference obtained from `Array.find`/`findIndex`, the object stored
in a module-level array. -/
def updateFirst (p : α → Bool) (f : α → α) : List α → List α
  | [] => []
  | a :: as => if p a then f a :: as else a :: updateFirst p f as

/-- JavaScript truthiness of an optional string (`undefined` and `""` are falsy). -/
def strTruthy : Option String → Bool
  | none => false
  | some s => !(s = "")

/-- `String.prototype.includes` on exploded strings: `needle` occurs
contiguously inside `hay`. -/
def strIncludes (hay needle : List Char) : Bool :=
  if needle.isPrefixOf hay then true
  else
    match hay with
    | [] => false
    | _ :: t => strIncludes t needle

/-- `Math.ceil(t / l)` for natural `t` and positive natural `l`. -/
def jsCeilDiv (t l : Nat) : Nat := (t + l - 1) / l

/-- Object-spread merge of an optional request field into an optional stored
field: a key present in the body overrides, an absent key keeps the old value. -/
def mergeOpt (new old : Option α) : Option α :=
  match new with
  | some v => some v
  | none => old

/-- The `pagination` object returned by the list handlers. -/
structure Pagination where
  page : Nat
  limit : Nat
  total : Nat
  totalPages : Nat
deriving Repr, DecidableEq

/-! ## Video rooms (`src/unnamed/part_000`) -/

inductive RoomStatus where
  | waiting
  | active
  | ended
deriving Repr, DecidableEq

/-- interface VideoRoom. -/
structure VideoRoom where
  id : String
  name : String
  description : Option String := none
  host : User
  participants : List User
  isPrivate : Bool
  maxParticipants : Nat
  password : Option String := none
  status : RoomStatus
  createdAt : Nat
  updatedAt : Nat
  endedAt : Option Nat := none
deriving Repr, DecidableEq

/-- interface CreateRoomRequest. -/
structure CreateRoomRequest where
  name : String
  description : Option String := none
  isPrivate : Bool
  maxParticipants : Nat
  password : Option String := none
deriving Repr, DecidableEq

/-- The body of `PUT /rooms/:id` (`Partial<CreateRoomRequest>`). -/
structure UpdateRoomRequest where
  name : Option String := none
  description : Option String := none
  isPrivate : Option Bool := none
  maxParticipants : Option Nat := none
  password : Option String := none
deriving Repr, DecidableEq

/-- A room as returned to clients: `{ ...room, password: _, participantCount }`. -/
structure RoomView where
  room : VideoRoom
  participantCount : Nat
deriving Repr, DecidableEq

/-- `{ ...room, password: pw, participantCount: room.participants.length }`. -/
def roomView (r : VideoRoom) (pw : Option String) : RoomView :=
  ⟨{ r with password := pw }, r.participants.length⟩

/-- The strict auth middleware (`derive` in parts 000, 001 and 002 is the same
code three times): throws — modelled as `Except.error` — on a missing or
invalid bearer token or an unknown user, otherwise yields `currentUser`. -/
def strictAuth (tok : BearerToken) (users : List User) : Except String User :=
  match tok with
  | .missing => .error "Token manquant"
  | .invalid => .error "Token invalide"
  | .valid p =>
    match users.find? (fun u => u.id = p.userId) with
    | none => .error "Utilisateur non trouvé"
    | some u => .ok u

/-- `POST /rooms`: create a room; never fails, host is the sole participant. -/
def createRoom (u : User) (body : CreateRoomRequest) (newId : String) (now : Nat)
    (rooms : List VideoRoom) : (VideoRoom × String) × List VideoRoom :=
  let newRoom : VideoRoom :=
    { id := newId
      name := body.name
      description := body.description
      host := u
      participants := [u]
      isPrivate := body.isPrivate
      maxParticipants := body.maxParticipants
      password := body.password
      status := .waiting
      createdAt := now
      updatedAt := now
      endedAt := none }
  ((newRoom, "Salle de visio créée avec succès"), newRoom :: rooms)

/-- `GET /rooms`: public rooms with the queried status (default `waiting`),
passwords blanked, plus the count. -/
def getRooms (statusQ : Option RoomStatus) (rooms : List VideoRoom) :
    List RoomView × Nat :=
  let status := statusQ.getD .waiting
  let publicRooms :=
    (rooms.filter (fun r => !r.isPrivate && r.status = status)).map
      (fun r => roomView r none)
  (publicRooms, publicRooms.length)

/-- `GET /rooms/:id`: a single room; private rooms are only visible to their
participants and host; the password is only returned to the host. -/
def getRoom (id : String) (u : User) (rooms : List VideoRoom) : HResp RoomView :=
  match rooms.find? (fun r => r.id = id) with
  | none => .err "Salle non trouvée"
  | some room =>
    if room.isPrivate
        ∧ ¬ (room.participants.any (fun p => p.id = u.id))
        ∧ ¬ (room.host.id = u.id) then
      .err "Accès non autorisé à cette salle privée"
    else
      .ok (roomView room (if room.host.id = u.id then room.password else none))

/-- The three possible responses of `POST /rooms/:id/join`. -/
inductive JoinResp where
  | err (message : String)
  | already (room : VideoRoom) (message : String)
  | joined (room : RoomView) (message : String)
deriving Repr, DecidableEq

/-- The successful-join mutation: push the user, refresh `updatedAt`, and
activate a waiting room once it has two participants. -/
def joinApply (room : VideoRoom) (u : User) (now : Nat) : VideoRoom :=
  let ps := room.participants ++ [u]
  let st := if ps.length = 2 ∧ room.status = .waiting then RoomStatus.active else room.status
  { room with participants := ps, updatedAt := now, status := st }

/-- `POST /rooms/:id/join`. -/
def joinRoom (id : String) (pw? : Option String) (u : User) (now : Nat)
    (rooms : List VideoRoom) : JoinResp × List VideoRoom :=
  match rooms.find? (fun r => r.id = id) with
  | none => (.err "Salle non trouvée", rooms)
  | some room =>
    if room.status = .ended then (.err "Cette salle est terminée", rooms)
    else if room.participants.any (fun p => p.id = u.id) then
      (.already room "Vous êtes déjà dans cette salle", rooms)
    else if room.maxParticipants ≤ room.participants.length then
      (.err "La salle est pleine", rooms)
    else if strTruthy room.password ∧ ¬ (strTruthy pw? ∧ pw? = room.password) then
      (.err "Mot de passe incorrect", rooms)
    else
      (.joined (roomView (joinApply room u now) none) "Vous avez rejoint la salle avec succès",
        updateFirst (fun r => r.id = id) (fun r => joinApply r u now) rooms)

/-- The leave mutation applied to the room in which the leaving user was found
at participant index `idx`: splice the user out, transfer the host role to the
first remaining participant when the host left, and end the room when nobody
is left. -/
def leaveApply (room : VideoRoom) (idx : Nat) (u : User) (now : Nat) : VideoRoom :=
  let ps := room.participants.eraseIdx idx
  let r1 := { room with participants := ps, updatedAt := now }
  let r2 :=
    if room.host.id = u.id then
      match ps with
      | newHost :: _ => { r1 with host := newHost }
      | [] => { r1 with status := .ended, endedAt := some now }
    else r1
  if r2.participants.length = 0 then { r2 with status := .ended, endedAt := some now } else r2

/-- `POST /rooms/:id/leave`. -/
def leaveRoom (id : String) (u : User) (now : Nat) (rooms : List VideoRoom) :
    HResp String × List VideoRoom :=
  match rooms.find? (fun r => r.id = id) with
  | none => (.err "Salle non trouvée", rooms)
  | some room =>
    match room.participants.findIdx? (fun p => p.id = u.id) with
    | none => (.err "Vous n'êtes pas dans cette salle", rooms)
    | some idx =>
      (.ok "Vous avez quitté la salle",
        updateFirst (fun r => r.id = id) (fun r => leaveApply r idx u now) rooms)

/-- `POST /rooms/:id/end`: host only; fails on an already-ended room. -/
def endRoom (id : String) (u : User) (now : Nat) (rooms : List VideoRoom) :
    HResp (VideoRoom × String) × List VideoRoom :=
  match rooms.find? (fun r => r.id = id) with
  | none => (.err "Salle non trouvée", rooms)
  | some room =>
    if ¬ (room.host.id = u.id) then (.err "Seul l'hôte peut terminer la salle", rooms)
    else if room.status = .ended then (.err "La salle est déjà terminée", rooms)
    else
      let room' := { room with status := .ended, endedAt := some now, updatedAt := now }
      (.ok (room', "Salle terminée avec succès"),
        updateFirst (fun r => r.id = id)
          (fun r => { r with status := .ended, endedAt := some now, updatedAt := now }) rooms)

/-- `GET /history`: rooms the user hosts or participates in, paginated,
passwords blanked. -/
def getHistory (u : User) (page? limit? : Option Nat) (rooms : List VideoRoom) :
    List RoomView × Pagination :=
  let page := page?.getD 1
  let limit := limit?.getD 20
  let userRooms := rooms.filter
    (fun r => r.host.id = u.id || r.participants.any (fun p => p.id = u.id))
  let startIndex := (page - 1) * limit
  let paginated := (userRooms.drop startIndex).take limit
  (paginated.map (fun r => roomView r none),
    ⟨page, limit, userRooms.length, jsCeilDiv userRooms.length limit⟩)

/-- `Object.assign(room, { ...updateData, updatedAt: new Date() })`. -/
def applyRoomUpdate (body : UpdateRoomRequest) (now : Nat) (r : VideoRoom) : VideoRoom :=
  { r with
    name := body.name.getD r.name
    description := mergeOpt body.description r.description
    isPrivate := body.isPrivate.getD r.isPrivate
    maxParticipants := body.maxParticipants.getD r.maxParticipants
    password := mergeOpt body.password r.password
    updatedAt := now }

/-- `PUT /rooms/:id`: host only, not on an ended room; object-merge update. -/
def updateRoom (id : String) (body : UpdateRoomRequest) (u : User) (now : Nat)
    (rooms : List VideoRoom) : HResp (RoomView × String) × List VideoRoom :=
  match rooms.find? (fun r => r.id = id) with
  | none => (.err "Salle non trouvée", rooms)
  | some room =>
    if ¬ (room.host.id = u.id) then (.err "Seul l'hôte peut modifier la salle", rooms)
    else if room.status = .ended then (.err "Impossible de modifier une salle terminée", rooms)
    else
      let room' := applyRoomUpdate body now room
      (.ok (⟨room', room'.participants.length⟩, "Salle mise à jour avec succès"),
        updateFirst (fun r => r.id = id) (fun r => applyRoomUpdate body now r) rooms)

/-! ## Posts (`src/unnamed/part_001`) -/

/-- interface Comment. -/
structure Comment where
  id : String
  content : String
  author : User
  postId : String
  createdAt : Nat
  updatedAt : Nat
deriving Repr, DecidableEq

/-- interface Post; `likes` holds user ids. -/
structure Post where
  id : String
  content : String
  author : User
  images : List String
  likes : List String
  comments : List Comment
  createdAt : Nat
  updatedAt : Nat
deriving Repr, DecidableEq

/-- interface CreatePostRequest (also the `PUT /:id` body). -/
structure CreatePostRequest where
  content : String
  images : Option (List String) := none
deriving Repr, DecidableEq

/-- A post as returned to clients: `{ ...post, likesCount, commentsCount }`. -/
structure PostView where
  post : Post
  likesCount : Nat
  commentsCount : Nat
deriving Repr, DecidableEq

def postView (p : Post) : PostView := ⟨p, p.likes.length, p.comments.length⟩

/-- `POST /` (posts): create a post; never fails; `unshift` onto the store. -/
def createPost (u : User) (body : CreatePostRequest) (newId : String) (now : Nat)
    (posts : List Post) : (Post × String) × List Post :=
  let newPost : Post :=
    { id := newId
      content := body.content
      author := u
      images := body.images.getD []
      likes := []
      comments := []
      createdAt := now
      updatedAt := now }
  ((newPost, "Post créé avec succès"), newPost :: posts)

/-- `GET /` (posts): the paginated feed. -/
def getPosts (page? limit? : Option Nat) (posts : List Post) :
    List PostView × Pagination :=
  let page := page?.getD 1
  let limit := limit?.getD 20
  let startIndex := (page - 1) * limit
  let paginated := ((posts.drop startIndex).take limit).map postView
  (paginated, ⟨page, limit, posts.length, jsCeilDiv posts.length limit⟩)

/-- `GET /:id` (posts). -/
def getPost (id : String) (posts : List Post) : HResp PostView :=
  match posts.find? (fun p => p.id = id) with
  | none => .err "Post non trouvé"
  | some post => .ok (postView post)

/-- `PUT /:id` (posts): author only; `content` is mandatory, `images` keeps
the old value when absent. -/
def updatePost (id : String) (body : CreatePostRequest) (u : User) (now : Nat)
    (posts : List Post) : HResp (Post × String) × List Post :=
  match posts.find? (fun p => p.id = id) with
  | none => (.err "Post non trouvé", posts)
  | some post =>
    if ¬ (post.author.id = u.id) then
      (.err "Vous ne pouvez modifier que vos propres posts", posts)
    else
      let post' := { post with
        content := body.content
        images := body.images.getD post.images
        updatedAt := now }
      (.ok (post', "Post mis à jour avec succès"),
        updateFirst (fun p => p.id = id)
          (fun p => { p with
            content := body.content
            images := body.images.getD p.images
            updatedAt := now }) posts)

/-- `DELETE /:id` (posts): author only; splice out of the store. -/
def deletePost (id : String) (u : User) (posts : List Post) :
    HResp String × List Post :=
  match posts.findIdx? (fun p => p.id = id) with
  | none => (.err "Post non trouvé", posts)
  | some postIndex =>
    match posts.get? postIndex with
    | none => (.err "Vous ne pouvez supprimer que vos propres posts", posts)
    | some post =>
      if ¬ (post.author.id = u.id) then
        (.err "Vous ne pouvez supprimer que vos propres posts", posts)
      else
        (.ok "Post supprimé avec succès", posts.eraseIdx postIndex)

/-- The payload of a successful `POST /:id/like`. -/
structure LikePayload where
  liked : Bool
  likesCount : Nat
  message : String
deriving Repr, DecidableEq

/-- `POST /:id/like`: toggle the user's id in the post's likes list
(`indexOf` then `push` or `splice`). -/
def likePost (id : String) (u : User) (posts : List Post) :
    HResp LikePayload × List Post :=
  match posts.find? (fun p => p.id = id) with
  | none => (.err "Post non trouvé", posts)
  | some post =>
    match post.likes.findIdx? (fun x => x = u.id) with
    | none =>
      (.ok ⟨true, (post.likes ++ [u.id]).length, "Post liké"⟩,
        updateFirst (fun p => p.id = id)
          (fun p => { p with likes := p.likes ++ [u.id] }) posts)
    | some i =>
      (.ok ⟨false, (post.likes.eraseIdx i).length, "Like retiré"⟩,
        updateFirst (fun p => p.id = id)
          (fun p => { p with likes := p.likes.eraseIdx i }) posts)

/-- `POST /:id/comments`: append a comment. -/
def addComment (id : String) (content : String) (u : User) (newId : String)
    (now : Nat) (posts : List Post) : HResp (Comment × String) × List Post :=
  match posts.find? (fun p => p.id = id) with
  | none => (.err "Post non trouvé", posts)
  | some _ =>
    let newComment : Comment :=
      { id := newId, content := content, author := u, postId := id
        createdAt := now, updatedAt := now }
    (.ok (newComment, "Commentaire ajouté avec succès"),
      updateFirst (fun p => p.id = id)
        (fun p => { p with comments := p.comments ++ [newComment] }) posts)

/-- `GET /:id/comments`. -/
def getComments (id : String) (posts : List Post) : HResp (List Comment) :=
  match posts.find? (fun p => p.id = id) with
  | none => .err "Post non trouvé"
  | some post => .ok post.comments

/-! ## Marketplace (`src/apps/backend/src/routes/marketplace.ts`) -/

inductive Condition where
  | new
  | likeNew
  | good
  | fair
  | poor
deriving Repr, DecidableEq

inductive ProductStatus where
  | available
  | sold
  | reserved
deriving Repr, DecidableEq

/-- interface Product. The JS `price` (a non-negative numeric) is modelled
as a `Nat`; the listing algorithm only compares prices. -/
structure Product where
  id : String
  title : String
  description : String
  price : Nat
  currency : String
  category : String
  condition : Condition
  images : List String
  seller : User
  location : Option String := none
  status : ProductStatus
  tags : List String
  createdAt : Nat
  updatedAt : Nat
deriving Repr, DecidableEq

/-- interface CreateProductRequest. -/
structure CreateProductRequest where
  title : String
  description : String
  price : Nat
  currency : String
  category : String
  condition : Condition
  images : List String
  location : Option String := none
  tags : List String
deriving Repr, DecidableEq

/-- interface UpdateProductRequest. -/
structure UpdateProductRequest where
  title : Option String := none
  description : Option String := none
  price : Option Nat := none
  condition : Option Condition := none
  images : Option (List String) := none
  location : Option String := none
  status : Option ProductStatus := none
  tags : Option (List String) := none
deriving Repr, DecidableEq

inductive SortOrder where
  | asc
  | desc
deriving Repr, DecidableEq

/-- The sort keys of `GET /` (marketplace). The route accepts `sortBy` as a
free string indexing into `Product`; the model covers the sortable fields of
each kind (numeric timestamps, numeric price, and a string field). -/
inductive SortKey where
  | price
  | createdAt
  | updatedAt
  | title
deriving Repr, DecidableEq

/-- JS `<` on strings: lexicographic comparison of code units. -/
def jsStrLt (a b : String) : Bool :=
  decide (a.toList.map Char.toNat < b.toList.map Char.toNat)

/-- `a[sortBy] < b[sortBy]` for the modelled sort keys. -/
def sortKeyLt (k : SortKey) (a b : Product) : Bool :=
  match k with
  | .price => a.price < b.price
  | .createdAt => a.createdAt < b.createdAt
  | .updatedAt => a.updatedAt < b.updatedAt
  | .title => jsStrLt a.title b.title

/-- `compare(a, b) <= 0` for the listing's comparator: ascending order keeps
`a` before `b` unless `a[k] > b[k]`, descending unless `a[k] < b[k]`. -/
def sortLe (k : SortKey) (o : SortOrder) (a b : Product) : Bool :=
  match o with
  | .asc => !(sortKeyLt k b a)
  | .desc => !(sortKeyLt k a b)

/-- The query of `GET /` (marketplace), after Elysia validation. -/
structure ListQuery where
  page : Option Nat := none
  limit : Option Nat := none
  category : Option String := none
  minPrice : Option Nat := none
  maxPrice : Option Nat := none
  condition : Option Condition := none
  status : Option ProductStatus := none
  search : Option String := none
  sortBy : Option SortKey := none
  sortOrder : Option SortOrder := none
deriving Repr, DecidableEq

/-- Whether one product passes the search-term test of the listing. -/
def searchMatches (term : String) (p : Product) : Bool :=
  strIncludes p.title.toLower.toList term.toList
  || strIncludes p.description.toLower.toList term.toList
  || p.tags.any (fun tag => strIncludes tag.toLower.toList term.toList)

/-- The successive `filter` calls of `GET /` (marketplace), in source order;
`category` and `search` are only applied when truthy (JS `if (category)`,
`if (search)`). -/
def filterProducts (q : ListQuery) (products : List Product) : List Product :=
  let status := q.status.getD .available
  let f1 := products.filter (fun p => p.status = status)
  let f2 := match q.category with
    | some c => if c = "" then f1 else f1.filter (fun p => p.category = c)
    | none => f1
  let f3 := match q.minPrice with
    | some m => f2.filter (fun p => m ≤ p.price)
    | none => f2
  let f4 := match q.maxPrice with
    | some m => f3.filter (fun p => p.price ≤ m)
    | none => f3
  let f5 := match q.condition with
    | some c => f4.filter (fun p => p.condition = c)
    | none => f4
  match q.search with
  | some s => if s = "" then f5 else f5.filter (searchMatches s.toLower)
  | none => f5

/-- `GET /` (marketplace): filter, sort (the comparator keeps `a` before `b`
exactly when `sortLe`), paginate. -/
def listProducts (q : ListQuery) (products : List Product) :
    List Product × Pagination :=
  let filtered := filterProducts q products
  let sorted := filtered.mergeSort (sortLe (q.sortBy.getD .createdAt) (q.sortOrder.getD .desc))
  let page := q.page.getD 1
  let limit := q.limit.getD 20
  let startIndex := (page - 1) * limit
  ((sorted.drop startIndex).take limit,
    ⟨page, limit, filtered.length, jsCeilDiv filtered.length limit⟩)

/-- The marketplace auth middleware: optional — a missing or invalid token
yields `currentUser = null` instead of throwing. -/
def marketplaceAuth (tok : BearerToken) (users : List User) : Option User :=
  match tok with
  | .missing => none
  | .invalid => none
  | .valid p => users.find? (fun u => u.id = p.userId)

/-- `GET /:id` (marketplace). -/
def getProduct (id : String) (products : List Product) : HResp Product :=
  match products.find? (fun p => p.id = id) with
  | none => .err "Produit non trouvé"
  | some product => .ok product

/-- `POST /` (marketplace): requires a current user; otherwise never fails,
`unshift` onto the store. -/
def createProduct (u? : Option User) (body : CreateProductRequest) (newId : String)
    (now : Nat) (products : List Product) : HResp (Product × String) × List Product :=
  match u? with
  | none => (.err "Authentification requise", products)
  | some u =>
    let newProduct : Product :=
      { id := newId
        title := body.title
        description := body.description
        price := body.price
        currency := body.currency
        category := body.category
        condition := body.condition
        images := body.images
        seller := u
        location := body.location
        status := .available
        tags := body.tags
        createdAt := now
        updatedAt := now }
    (.ok (newProduct, "Produit créé avec succès"), newProduct :: products)

/-- `Object.assign(product, { ...updateData, updatedAt: new Date() })`. -/
def applyProductUpdate (body : UpdateProductRequest) (now : Nat) (p : Product) : Product :=
  { p with
    title := body.title.getD p.title
    description := body.description.getD p.description
    price := body.price.getD p.price
    condition := body.condition.getD p.condition
    images := body.images.getD p.images
    location := mergeOpt body.location p.location
    status := body.status.getD p.status
    tags := body.tags.getD p.tags
    updatedAt := now }

/-- `PUT /:id` (marketplace): seller only; object-merge update. -/
def updateProduct (id : String) (body : UpdateProductRequest) (u? : Option User)
    (now : Nat) (products : List Product) : HResp (Product × String) × List Product :=
  match u? with
  | none => (.err "Authentification requise", products)
  | some u =>
    match products.find? (fun p => p.id = id) with
    | none => (.err "Produit non trouvé", products)
    | some product =>
      if ¬ (product.seller.id = u.id) then
        (.err "Vous ne pouvez modifier que vos propres produits", products)
      else
        (.ok (applyProductUpdate body now product, "Produit mis à jour avec succès"),
          updateFirst (fun p => p.id = id) (applyProductUpdate body now) products)

/-- `DELETE /:id` (marketplace): seller only; splice out of the store. -/
def deleteProduct (id : String) (u? : Option User) (products : List Product) :
    HResp String × List Product :=
  match u? with
  | none => (.err "Authentification requise", products)
  | some u =>
    match products.findIdx? (fun p => p.id = id) with
    | none => (.err "Produit non trouvé", products)
    | some productIndex =>
      match products.get? productIndex with
      | none => (.err "Vous ne pouvez supprimer que vos propres produits", products)
      | some product =>
        if ¬ (product.seller.id = u.id) then
          (.err "Vous ne pouvez supprimer que vos propres produits", products)
        else
          (.ok "Produit supprimé avec succès", products.eraseIdx productIndex)

/-- `GET /seller/:sellerId`. -/
def sellerProducts (sellerId : String) (products : List Product) :
    List Product × Nat :=
  let sp := products.filter (fun p => p.seller.id = sellerId)
  (sp, sp.length)

/-- `Array.from(new Set(...))`: deduplicate keeping first occurrences in order. -/
def dedupFirstAux (seen : List String) : List String → List String
  | [] => []
  | a :: as => if a ∈ seen then dedupFirstAux seen as else a :: dedupFirstAux (a :: seen) as

/-- `GET /categories`. -/
def getCategories (products : List Product) : List String :=
  dedupFirstAux [] (products.map (fun p => p.category))

/-- `POST /:id/mark-sold`: seller only. -/
def markSold (id : String) (u? : Option User) (now : Nat) (products : List Product) :
    HResp (Product × String) × List Product :=
  match u? with
  | none => (.err "Authentification requise", products)
  | some u =>
    match products.find? (fun p => p.id = id) with
    | none => (.err "Produit non trouvé", products)
    | some product =>
      if ¬ (product.seller.id = u.id) then
        (.err "Vous ne pouvez modifier que vos propres produits", products)
      else
        (.ok ({ product with status := .sold, updatedAt := now }, "Produit marqué comme vendu"),
          updateFirst (fun p => p.id = id)
            (fun p => { p with status := .sold, updatedAt := now }) products)

/-! ## Auth (`src/apps/backend/src/routes/auth.ts`) -/

/-- interface RegisterRequest. -/
structure RegisterRequest where
  email : String
  username : String
  password : String
  firstName : String
  lastName : String
deriving Repr, DecidableEq

/-- interface LoginRequest. -/
structure LoginRequest where
  email : String
  password : String
deriving Repr, DecidableEq

/-- `Map.prototype.set`: replace the value of an existing key in place, or
append a new entry (JS maps preserve insertion order). -/
def setCred : List (String × String) → String → String → List (String × String)
  | [], k, v => [(k, v)]
  | (k', v') :: rest, k, v =>
    if k' = k then (k, v) :: rest else (k', v') :: setCred rest k v

/-- `Map.prototype.get` (with `has` folded in: `none` when absent). -/
def getCred : List (String × String) → String → Option String
  | [], _ => none
  | (k', v') :: rest, k => if k' = k then some v' else getCred rest k

/-- `POST /register`: rejects an email or username already stored, otherwise
pushes the new user and records the plaintext credential. -/
def register (body : RegisterRequest) (newId : String) (now : Nat)
    (users : List User) (creds : List (String × String)) :
    HResp (User × JwtPayload) × (List User × List (String × String)) :=
  if users.any (fun u => u.email = body.email || u.username = body.username) then
    (.err "Un utilisateur avec cet email ou ce nom d'utilisateur existe déjà", (users, creds))
  else
    let newUser : User :=
      { id := newId
        email := body.email
        username := body.username
        firstName := body.firstName
        lastName := body.lastName
        createdAt := now
        updatedAt := now }
    (.ok (newUser, ⟨newUser.id, newUser.email⟩),
      (users ++ [newUser], setCred creds body.email body.password))

/-- `POST /login`. -/
def login (body : LoginRequest) (users : List User)
    (creds : List (String × String)) : HResp (User × JwtPayload) :=
  if ¬ (getCred creds body.email = some body.password) then
    .err "Email ou mot de passe incorrect"
  else
    match users.find? (fun u => u.email = body.email) with
    | none => .err "Utilisateur non trouvé"
    | some user => .ok (user, ⟨user.id, user.email⟩)

/-- `GET /verify`: unlike the strict middleware this route catches failures
and returns tagged error objects. -/
def verifyToken (tok : BearerToken) (users : List User) : HResp User :=
  match tok with
  | .missing => .err "Token manquant"
  | .invalid => .err "Token invalide"
  | .valid p =>
    match users.find? (fun u => u.id = p.userId) with
    | none => .err "Utilisateur non trouvé"
    | some u => .ok u

/-! ## Users (`src/unnamed/part_002`) -/

/-- interface UpdateProfileRequest. -/
structure UpdateProfileRequest where
  firstName : Option String := none
  lastName : Option String := none
  bio : Option String := none
  location : Option String := none
  website : Option String := none
  avatar : Option String := none
deriving Repr, DecidableEq

/-- `Object.assign(currentUser, { ...updateData, updatedAt: new Date() })`. -/
def applyProfileUpdate (body : UpdateProfileRequest) (now : Nat) (u : User) : User :=
  { u with
    firstName := body.firstName.getD u.firstName
    lastName := body.lastName.getD u.lastName
    bio := mergeOpt body.bio u.bio
    location := mergeOpt body.location u.location
    website := mergeOpt body.website u.website
    avatar := mergeOpt body.avatar u.avatar
    updatedAt := now }

/-- `PUT /me`: merge the body into the current user (the object the middleware
found in the `users` store). -/
def updateProfile (u : User) (body : UpdateProfileRequest) (now : Nat)
    (users : List User) : (User × String) × List User :=
  ((applyProfileUpdate body now u, "Profil mis à jour avec succès"),
    updateFirst (fun x => x.id = u.id) (applyProfileUpdate body now) users)

/-- `GET /:id` (users). -/
def getUser (id : String) (users : List User) : HResp User :=
  match users.find? (fun u => u.id = id) with
  | none => .err "Utilisateur non trouvé"
  | some user => .ok user

/-- `GET /search` (users). -/
def searchUsers (q : String) (limit? : Option Nat) (users : List User) :
    HResp (List User × Nat) :=
  if q.length < 2 then .err "La recherche doit contenir au moins 2 caractères"
  else
    let term := q.toLower
    let results := (users.filter (fun u =>
      strIncludes u.firstName.toLower.toList term.toList
      || strIncludes u.lastName.toLower.toList term.toList
      || strIncludes u.username.toLower.toList term.toList)).take (limit?.getD 10)
    .ok (results, results.length)

/-- `GET /suggestions`: the ten most recent other users (sort comparator
`b.createdAt - a.createdAt`, i.e. keep `a` before `b` when `b.createdAt ≤ a.createdAt`). -/
def suggestions (u : User) (users : List User) : List User :=
  (((users.filter (fun x => !(x.id = u.id))).mergeSort
    (fun a b => b.createdAt ≤ a.createdAt)).take 10)

/-! ## Sequential video-room operations -/

/-- One authenticated video-room request, with its nondeterministic inputs
(fresh id, clock) made explicit. -/
inductive RoomOp where
  | create (u : User) (body : CreateRoomRequest) (newId : String) (now : Nat)
  | join (id : String) (pw? : Option String) (u : User) (now : Nat)
  | leave (id : String) (u : User) (now : Nat)
  | endR (id : String) (u : User) (now : Nat)
  | update (id : String) (body : UpdateRoomRequest) (u : User) (now : Nat)
deriving Repr, DecidableEq

/-- The effect of one room operation on the `videoRooms` store. -/
def applyRoomOp (op : RoomOp) (rooms : List VideoRoom) : List VideoRoom :=
  match op with
  | .create u body newId now => (createRoom u body newId now rooms).2
  | .join id pw? u now => (joinRoom id pw? u now rooms).2
  | .leave id u now => (leaveRoom id u now rooms).2
  | .endR id u now => (endRoom id u now rooms).2
  | .update id body u now => (updateRoom id body u now rooms).2

/-- The `videoRooms` store after a sequence of operations, starting from the
initial empty array. -/
def runRoomOps (ops : List RoomOp) : List VideoRoom :=
  ops.foldl (fun rooms op => applyRoomOp op rooms) []

/-- Each user id occurs at most once among a room's participants. -/
def participantsNodup (r : VideoRoom) : Prop :=
  (r.participants.map (fun p => p.id)).Nodup

/-! ## The whole backend as one request dispatcher -/

/-- The five module-level stores. -/
structure GlobalState where
  users : List User
  userCredentials : List (String × String)
  posts : List Post
  products : List Product
  videoRooms : List VideoRoom
deriving Repr, DecidableEq

/-- The empty stores the process starts with. -/
def initialState : GlobalState := ⟨[], [], [], [], []⟩

/-- Any request of the API, with nondeterministic inputs made explicit. -/
inductive Request where
  | aRegister (body : RegisterRequest) (newId : String) (now : Nat)
  | aLogin (body : LoginRequest)
  | aVerify (tok : BearerToken)
  | aLogout
  | uGetMe (tok : BearerToken)
  | uGetUser (tok : BearerToken) (id : String)
  | uPutMe (tok : BearerToken) (body : UpdateProfileRequest) (now : Nat)
  | uSearch (tok : BearerToken) (q : String) (limit? : Option Nat)
  | uSuggestions (tok : BearerToken)
  | pCreate (tok : BearerToken) (body : CreatePostRequest) (newId : String) (now : Nat)
  | pList (tok : BearerToken) (page? limit? : Option Nat)
  | pGet (tok : BearerToken) (id : String)
  | pPut (tok : BearerToken) (id : String) (body : CreatePostRequest) (now : Nat)
  | pDelete (tok : BearerToken) (id : String)
  | pLike (tok : BearerToken) (id : String)
  | pComment (tok : BearerToken) (id : String) (content : String) (newId : String) (now : Nat)
  | pComments (tok : BearerToken) (id : String)
  | mList (q : ListQuery)
  | mGet (id : String)
  | mCreate (tok : BearerToken) (body : CreateProductRequest) (newId : String) (now : Nat)
  | mPut (tok : BearerToken) (id : String) (body : UpdateProductRequest) (now : Nat)
  | mDelete (tok : BearerToken) (id : String)
  | mSeller (sellerId : String)
  | mCategories
  | mMarkSold (tok : BearerToken) (id : String) (now : Nat)
  | vCreate (tok : BearerToken) (body : CreateRoomRequest) (newId : String) (now : Nat)
  | vList (tok : BearerToken) (status? : Option RoomStatus)
  | vGet (tok : BearerToken) (id : String)
  | vJoin (tok : BearerToken) (id : String) (pw? : Option String) (now : Nat)
  | vLeave (tok : BearerToken) (id : String) (now : Nat)
  | vEnd (tok : BearerToken) (id : String) (now : Nat)
  | vHistory (tok : BearerToken) (page? limit? : Option Nat)
  | vPut (tok : BearerToken) (id : String) (body : UpdateRoomRequest) (now : Nat)
deriving Repr, DecidableEq

/-- How one request ended: a success object, an `error: true` object, or an
exception thrown by the strict auth middleware. -/
inductive Outcome where
  | ok
  | errObj (message : String)
  | threw (message : String)
deriving Repr, DecidableEq

def outcomeOf : HResp α → Outcome
  | .ok _ => .ok
  | .err m => .errObj m

def joinOutcome : JoinResp → Outcome
  | .err m => .errObj m
  | .already _ _ => .ok
  | .joined _ _ => .ok

/-- Run one request against the stores: resolve the module's middleware, run
the handler, and report how the response was tagged. -/
def dispatch (req : Request) (s : GlobalState) : Outcome × GlobalState :=
  match req with
  | .aRegister body newId now =>
    let r := register body newId now s.users s.userCredentials
    (outcomeOf r.1, { s with users := r.2.1, userCredentials := r.2.2 })
  | .aLogin body => (outcomeOf (login body s.users s.userCredentials), s)
  | .aVerify tok => (outcomeOf (verifyToken tok s.users), s)
  | .aLogout => (.ok, s)
  | .uGetMe tok =>
    match strictAuth tok s.users with
    | .error m => (.threw m, s)
    | .ok _ => (.ok, s)
  | .uGetUser tok id =>
    match strictAuth tok s.users with
    | .error m => (.threw m, s)
    | .ok _ => (outcomeOf (getUser id s.users), s)
  | .uPutMe tok body now =>
    match strictAuth tok s.users with
    | .error m => (.threw m, s)
    | .ok u => (.ok, { s with users := (updateProfile u body now s.users).2 })
  | .uSearch tok q limit? =>
    match strictAuth tok s.users with
    | .error m => (.threw m, s)
    | .ok _ => (outcomeOf (searchUsers q limit? s.users), s)
  | .uSuggestions tok =>
    match strictAuth tok s.users with
    | .error m => (.threw m, s)
    | .ok _ => (.ok, s)
  | .pCreate tok body newId now =>
    match strictAuth tok s.users with
    | .error m => (.threw m, s)
    | .ok u => (.ok, { s with posts := (createPost u body newId now s.posts).2 })
  | .pList tok _ _ =>
    match strictAuth tok s.users with
    | .error m => (.threw m, s)
    | .ok _ => (.ok, s)
  | .pGet tok id =>
    match strictAuth tok s.users with
    | .error m => (.threw m, s)
    | .ok _ => (outcomeOf (getPost id s.posts), s)
  | .pPut tok id body now =>
    match strictAuth tok s.users with
    | .error m => (.threw m, s)
    | .ok u =>
      let r := updatePost id body u now s.posts
      (outcomeOf r.1, { s with posts := r.2 })
  | .pDelete tok id =>
    match strictAuth tok s.users with
    | .error m => (.threw m, s)
    | .ok u =>
      let r := deletePost id u s.posts
      (outcomeOf r.1, { s with posts := r.2 })
  | .pLike tok id =>
    match strictAuth tok s.users with
    | .error m => (.threw m, s)
    | .ok u =>
      let r := likePost id u s.posts
      (outcomeOf r.1, { s with posts := r.2 })
  | .pComment tok id content newId now =>
    match strictAuth tok s.users with
    | .error m => (.threw m, s)
    | .ok u =>
      let r := addComment id content u newId now s.posts
      (outcomeOf r.1, { s with posts := r.2 })
  | .pComments tok id =>
    match strictAuth tok s.users with
    | .error m => (.threw m, s)
    | .ok _ => (outcomeOf (getComments id s.posts), s)
  | .mList _ => (.ok, s)
  | .mGet id => (outcomeOf (getProduct id s.products), s)
  | .mCreate tok body newId now =>
    let r := createProduct (marketplaceAuth tok s.users) body newId now s.products
    (outcomeOf r.1, { s with products := r.2 })
  | .mPut tok id body now =>
    let r := updateProduct id body (marketplaceAuth tok s.users) now s.products
    (outcomeOf r.1, { s with products := r.2 })
  | .mDelete tok id =>
    let r := deleteProduct id (marketplaceAuth tok s.users) s.products
    (outcomeOf r.1, { s with products := r.2 })
  | .mSeller _ => (.ok, s)
  | .mCategories => (.ok, s)
  | .mMarkSold tok id now =>
    let r := markSold id (marketplaceAuth tok s.users) now s.products
    (outcomeOf r.1, { s with products := r.2 })
  | .vCreate tok body newId now =>
    match strictAuth tok s.users with
    | .error m => (.threw m, s)
    | .ok u => (.ok, { s with videoRooms := (createRoom u body newId now s.videoRooms).2 })
  | .vList tok _ =>
    match strictAuth tok s.users with
    | .error m => (.threw m, s)
    | .ok _ => (.ok, s)
  | .vGet tok id =>
    match strictAuth tok s.users with
    | .error m => (.threw m, s)
    | .ok u => (outcomeOf (getRoom id u s.videoRooms), s)
  | .vJoin tok id pw? now =>
    match strictAuth tok s.users with
    | .error m => (.threw m, s)
    | .ok u =>
      let r := joinRoom id pw? u now s.videoRooms
      (joinOutcome r.1, { s with videoRooms := r.2 })
  | .vLeave tok id now =>
    match strictAuth tok s.users with
    | .error m => (.threw m, s)
    | .ok u =>
      let r := leaveRoom id u now s.videoRooms
      (outcomeOf r.1, { s with videoRooms := r.2 })
  | .vEnd tok id now =>
    match strictAuth tok s.users with
    | .error m => (.threw m, s)
    | .ok u =>
      let r := endRoom id u now s.videoRooms
      (outcomeOf r.1, { s with videoRooms := r.2 })
  | .vHistory tok _ _ =>
    match strictAuth tok s.users with
    | .error m => (.threw m, s)
    | .ok _ => (.ok, s)
  | .vPut tok id body now =>
    match strictAuth tok s.users with
    | .error m => (.threw m, s)
    | .ok u =>
      let r := updateRoom id body u now s.videoRooms
      (outcomeOf r.1, { s with videoRooms := r.2 })

/-! ## Specification-side predicate for the marketplace listing

`matchesQuery` is the single-pass reading of the listing claim: a product is
kept exactly when its status equals the status filter (default `available`)
and it satisfies every provided filter. It is compared against the handler's
chain of filters. -/

def matchesQuery (q : ListQuery) (p : Product) : Bool :=
  (p.status = q.status.getD .available)
  && (match q.category with
      | some c => (p.category = c)
      | none => true)
  && (match q.minPrice with
      | some m => (m ≤ p.price)
      | none => true)
  && (match q.maxPrice with
      | some m => (p.price ≤ m)
      | none => true)
  && (match q.condition with
      | some c => (p.condition = c)
      | none => true)
  && (match q.search with
      | some s => searchMatches s.toLower p
      | none => true)

/-! ## Concrete fixtures for witnesses and counterexamples -/

def uAlice : User :=
  { id := "u-alice", email := "alice@example.com", username := "alice"
    firstName := "Alice", lastName := "Ada", createdAt := 0, updatedAt := 0 }

def uBob : User :=
  { id := "u-bob", email := "bob@example.com", username := "bob"
    firstName := "Bob", lastName := "Blake", createdAt := 1, updatedAt := 1 }

def uCarol : User :=
  { id := "u-carol", email := "carol@example.com", username := "carol"
    firstName := "Carol", lastName := "Cruz", createdAt := 2, updatedAt := 2 }

def roomAB : VideoRoom :=
  { id := "room-1", name := "Standup", host := uAlice
    participants := [uAlice, uBob], isPrivate := false, maxParticipants := 2
    status := .active, createdAt := 0, updatedAt := 0 }

def roomPw : VideoRoom :=
  { id := "room-2", name := "Secret", host := uAlice
    participants := [uAlice, uBob], isPrivate := false, maxParticipants := 10
    password := some "hunter42", status := .active, createdAt := 0, updatedAt := 0 }

def postA : Post :=
  { id := "post-1", content := "hello", author := uAlice, images := []
    likes := [], comments := [], createdAt := 0, updatedAt := 0 }

def prodA : Product :=
  { id := "prod-1", title := "Bike", description := "Road bike", price := 100
    currency := "EUR", category := "sports", condition := .good, images := []
    seller := uAlice, status := .available, tags := ["bike"]
    createdAt := 0, updatedAt := 0 }

/-! ## Helper lemmas -/

theorem updateFirst_of_find?_eq_none {p : α → Bool} {f : α → α} {l : List α}
    (h : l.find? p = none) : updateFirst p f l = l := by
  induction l with
  | nil => rfl
  | cons a as ih =>
    rw [List.find?_cons] at h
    split at h
    · exact absurd h (by simp)
    · rename_i hpa
      simp [updateFirst, hpa, ih h]

theorem updateFirst_decomp {p : α → Bool} {l : List α} {a : α}
    (f : α → α) (h : l.find? p = some a) :
    ∃ l₁ l₂, l = l₁ ++ a :: l₂ ∧ (∀ x ∈ l₁, p x = false) ∧
      updateFirst p f l = l₁ ++ f a :: l₂ := by
  induction l with
  | nil => simp at h
  | cons b bs ih =>
    rw [List.find?_cons] at h
    split at h
    · rename_i hpb
      have hba : b = a := by simpa using h
      subst hba
      exact ⟨[], bs, rfl, by simp, by simp [updateFirst, hpb]⟩
    · rename_i hpb
      obtain ⟨l₁, l₂, heq, hall, hupd⟩ := ih h
      refine ⟨b :: l₁, l₂, by simp [heq], ?_, ?_⟩
      · intro x hx
        rcases List.mem_cons.mp hx with rfl | hx
        · exact hpb
        · exact hall x hx
      · simp only [updateFirst]
        rw [if_neg (by simp [hpb])]
        simp [hupd]

theorem mem_updateFirst {p : α → Bool} {f : α → α} {l : List α} {x : α}
    (hx : x ∈ updateFirst p f l) :
    x ∈ l ∨ ∃ a, l.find? p = some a ∧ x = f a := by
  cases h : l.find? p with
  | none =>
    rw [updateFirst_of_find?_eq_none h] at hx
    exact Or.inl hx
  | some a =>
    obtain ⟨l₁, l₂, heq, _, hupd⟩ := updateFirst_decomp f h
    rw [hupd] at hx
    rcases List.mem_append.mp hx with hx | hx
    · exact Or.inl (heq ▸ List.mem_append.mpr (Or.inl hx))
    · rcases List.mem_cons.mp hx with rfl | hx
      · exact Or.inr ⟨a, rfl, rfl⟩
      · exact Or.inl (heq ▸ List.mem_append.mpr (Or.inr (List.mem_cons_of_mem _ hx)))

theorem find?_append_head {p : α → Bool} {y : α} (hf : p y = true) :
    ∀ (l₁ : List α) (l₂ : List α), (∀ x ∈ l₁, p x = false) →
      (l₁ ++ y :: l₂).find? p = some y := by
  intro l₁
  induction l₁ with
  | nil => intro l₂ _; simp [List.find?_cons, hf]
  | cons b bs ih =>
    intro l₂ hall
    have hb : p b = false := hall b (by simp)
    simp only [List.cons_append, List.find?_cons, hb]
    exact ih l₂ (fun x hx => hall x (by simp [hx]))

theorem find?_updateFirst {p : α → Bool} {f : α → α} {l : List α} {a : α}
    (h : l.find? p = some a) (hf : p (f a) = true) :
    (updateFirst p f l).find? p = some (f a) := by
  obtain ⟨l₁, l₂, _, hall, hupd⟩ := updateFirst_decomp f h
  rw [hupd]
  exact find?_append_head hf l₁ l₂ hall

theorem eraseIdx_of_findIdx? {p : α → Bool} :
    ∀ {l : List α} {i : Nat}, l.findIdx? p = some i → l.eraseIdx i = l.eraseP p := by
  intro l
  induction l with
  | nil => intro i h; simp at h
  | cons a as ih =>
    intro i h
    rw [List.findIdx?_cons] at h
    by_cases hpa : p a
    · simp [hpa] at h
      subst h
      simp [List.eraseIdx, List.eraseP_cons, hpa]
    · simp [hpa] at h
      obtain ⟨j, hj, rfl⟩ := h
      simp [List.eraseIdx, List.eraseP_cons, hpa, ih hj]

theorem eraseP_eq_filter_of_countP_le_one {p : α → Bool} :
    ∀ {l : List α}, l.countP p ≤ 1 → l.eraseP p = l.filter (fun x => !(p x)) := by
  intro l
  induction l with
  | nil => intro _; rfl
  | cons a as ih =>
    intro h
    by_cases hpa : p a
    · rw [List.countP_cons_of_pos _ _ hpa] at h
      have : as.countP p = 0 := by omega
      have hall : ∀ x ∈ as, ¬ p x = true := List.countP_eq_zero.mp this
      rw [List.eraseP_cons_of_pos hpa, List.filter_cons_of_neg (by simp [hpa])]
      rw [List.filter_eq_self.mpr (fun x hx => by simp [hall x hx])]
    · rw [List.countP_cons_of_neg _ _ hpa] at h
      rw [List.eraseP_cons_of_neg (by simpa using hpa),
        List.filter_cons_of_pos (by simp [hpa]), ih h]

theorem leaveApply_spec (room : VideoRoom) (idx : Nat) (u : User) (now : Nat) :
    (leaveApply room idx u now).id = room.id ∧
    (leaveApply room idx u now).participants = room.participants.eraseIdx idx ∧
    (room.host.id = u.id → ∀ hd tl, room.participants.eraseIdx idx = hd :: tl →
      (leaveApply room idx u now).host = hd) ∧
    (room.participants.eraseIdx idx = [] →
      (leaveApply room idx u now).status = .ended ∧
      (leaveApply room idx u now).endedAt = some now) := by
  unfold leaveApply
  by_cases hh : room.host.id = u.id <;>
    cases hps : room.participants.eraseIdx idx <;>
      simp [hh, hps]

/-! ## Claims -/

/-- C1: for every video room and participant `p` calling leave, `p` is removed
from the participants list; if `p` was the host and the list is still
non-empty the host becomes the first remaining participant; and if the list
becomes empty the room's status becomes `ended` and `endedAt` is set. (The
participant list carries each id at most once, see the C9 invariant.) -/
theorem C1_leave_room (id : String) (u : User) (now : Nat)
    (rooms : List VideoRoom) (room : VideoRoom)
    (hfind : rooms.find? (fun r => r.id = id) = some room)
    (hnodup : participantsNodup room)
    (hmem : room.participants.any (fun p => p.id = u.id) = true) :
    ∃ room',
      ((leaveRoom id u now rooms).2).find? (fun r => r.id = id) = some room' ∧
      (leaveRoom id u now rooms).1 = .ok "Vous avez quitté la salle" ∧
      room'.participants = room.participants.filter (fun q => !(q.id = u.id)) ∧
      (¬ (room'.participants.any (fun q => q.id = u.id)) = true) ∧
      (room.host.id = u.id → ∀ hd tl, room'.participants = hd :: tl →
        room'.host = hd) ∧
      (room'.participants = [] → room'.status = .ended ∧
        room'.endedAt = some now) := by
  obtain ⟨idx, hidx⟩ : ∃ idx,
      room.participants.findIdx? (fun p => p.id = u.id) = some idx := by
    cases h : room.participants.findIdx? (fun p => p.id = u.id) with
    | some i => exact ⟨i, rfl⟩
    | none =>
      rw [List.findIdx?_eq_none_iff] at h
      simp only [List.any_eq_true] at hmem
      obtain ⟨x, hx, hxid⟩ := hmem
      have := h x hx
      rw [this] at hxid
      exact absurd hxid (by simp)
  have hcount : room.participants.countP (fun p => p.id = u.id) ≤ 1 := by
    have hn := List.nodup_iff_count_le_one.mp hnodup u.id
    have : (room.participants.map (fun p => p.id)).count u.id
        = room.participants.countP (fun p => p.id = u.id) := by
      show (room.participants.map (fun p => p.id)).countP (fun x => x == u.id)
        = room.participants.countP (fun p => p.id = u.id)
      rw [List.countP_map]
      exact List.countP_congr (fun x _ => by simp)
    omega
  have herase : room.participants.eraseIdx idx
      = room.participants.filter (fun q => !(q.id = u.id)) := by
    rw [eraseIdx_of_findIdx? hidx, eraseP_eq_filter_of_countP_le_one hcount]
  obtain ⟨hid, hparts, hhost, hempty⟩ := leaveApply_spec room idx u now
  have h0 := List.find?_some hfind
  have hroomid : room.id = id := by simpa using h0
  have hfid : decide ((leaveApply room idx u now).id = id) = true :=
    decide_eq_true (by rw [hid, hroomid])
  refine ⟨leaveApply room idx u now, ?_, ?_, ?_, ?_, ?_, ?_⟩
  · show ((leaveRoom id u now rooms).2).find? (fun r => r.id = id)
      = some (leaveApply room idx u now)
    unfold leaveRoom
    rw [hfind]
    simp only [hidx]
    exact find?_updateFirst hfind hfid
  · unfold leaveRoom
    rw [hfind]
    simp [hidx]
  · rw [hparts, herase]
  · rw [hparts, herase]
    simp only [List.any_eq_true, not_exists, not_and]
    intro x hx
    have hmem := List.mem_filter.mp hx
    simpa using hmem.2
  · intro hh hd tl hcons
    exact hhost hh hd tl (by rw [← hparts, hcons])
  · intro hnil
    exact hempty (by rw [← hparts, hnil])

/-- C1 witness: in a concrete two-person room the host leaves; the remaining
participant becomes host, the leaver is gone. -/
theorem C1_leave_room_witness :
    ∃ room',
      ((leaveRoom "room-1" uAlice 7 [roomAB]).2).find? (fun r => r.id = "room-1")
        = some room' ∧
      (leaveRoom "room-1" uAlice 7 [roomAB]).1 = .ok "Vous avez quitté la salle" ∧
      room'.participants = roomAB.participants.filter (fun q => !(q.id = uAlice.id)) ∧
      (¬ (room'.participants.any (fun q => q.id = uAlice.id)) = true) ∧
      (roomAB.host.id = uAlice.id → ∀ hd tl, room'.participants = hd :: tl →
        room'.host = hd) ∧
      (room'.participants = [] → room'.status = .ended ∧
        room'.endedAt = some 7) :=
  C1_leave_room "room-1" uAlice 7 [roomAB] roomAB (by decide)
    (by show (roomAB.participants.map (fun p => p.id)).Nodup; decide) (by decide)

theorem findIdx?_append_of_all_false {p : α → Bool} (y : α) (l₁ l₂ : List α)
    (hf : p y = true) (hall : ∀ x ∈ l₁, p x = false) :
    (l₁ ++ y :: l₂).findIdx? p = some l₁.length := by
  induction l₁ with
  | nil => simp [List.findIdx?_cons, hf]
  | cons b bs ih =>
    have hb : p b = false := hall b (by simp)
    rw [List.cons_append, List.findIdx?_cons]
    rw [if_neg (by simp [hb])]
    rw [List.findIdx?_succ, ih (fun x hx => hall x (by simp [hx]))]
    simp

theorem eraseIdx_concat (l : List α) (y : α) :
    (l ++ [y]).eraseIdx l.length = l := by
  induction l with
  | nil => rfl
  | cons a as ih => simpa [List.eraseIdx] using ih

/-- C5: liking then liking again (the like route is a toggle) restores the
like count; when the user had not liked the post, the first call reports
`liked = true` with count + 1 and the second `liked = false` with the original
count. (The likes list holds each user id at most once, which the handler
maintains.) -/
theorem C5_like_unlike_restores (id : String) (u : User) (posts : List Post)
    (post : Post)
    (hfind : posts.find? (fun p => p.id = id) = some post)
    (hcount : post.likes.count u.id ≤ 1) :
    ∃ post',
      ((likePost id u (likePost id u posts).2).2).find? (fun p => p.id = id)
        = some post' ∧
      post'.likes.length = post.likes.length ∧
      (u.id ∉ post.likes →
        (likePost id u posts).1 = .ok ⟨true, post.likes.length + 1, "Post liké"⟩ ∧
        (likePost id u (likePost id u posts).2).1
          = .ok ⟨false, post.likes.length, "Like retiré"⟩) := by
  have h0 := List.find?_some hfind
  have hpostid : post.id = id := by simpa using h0
  have hcountP : post.likes.countP (fun x => x = u.id) ≤ 1 := by
    have : post.likes.count u.id = post.likes.countP (fun x => x = u.id) := by
      show post.likes.countP (fun x => x == u.id) = _
      exact List.countP_congr (fun x _ => by simp)
    omega
  cases h1 : post.likes.findIdx? (fun x => x = u.id) with
  | none =>
    -- the user had not liked the post: push then erase the appended id
    have hnotin : ∀ x ∈ post.likes, decide (x = u.id) = false :=
      List.findIdx?_eq_none_iff.mp h1
    have hr1 : likePost id u posts
        = (.ok ⟨true, (post.likes ++ [u.id]).length, "Post liké"⟩,
           updateFirst (fun p => p.id = id)
             (fun p => { p with likes := p.likes ++ [u.id] }) posts) := by
      unfold likePost
      rw [hfind]
      simp only [h1]
    have hfid : decide (({ post with likes := post.likes ++ [u.id] } : Post).id = id)
        = true := decide_eq_true (by simpa using hpostid)
    have hfind1 : ((likePost id u posts).2).find? (fun p => p.id = id)
        = some { post with likes := post.likes ++ [u.id] } := by
      rw [hr1]
      exact find?_updateFirst hfind hfid
    have hidx1 : (post.likes ++ [u.id]).findIdx? (fun x => x = u.id)
        = some post.likes.length := by
      simpa using findIdx?_append_of_all_false u.id post.likes [] (by simp) hnotin
    have hr2 : likePost id u (likePost id u posts).2
        = (.ok ⟨false, ((post.likes ++ [u.id]).eraseIdx post.likes.length).length,
             "Like retiré"⟩,
           updateFirst (fun p => p.id = id)
             (fun p => { p with likes := p.likes.eraseIdx post.likes.length })
             (likePost id u posts).2) := by
      generalize hgen : (likePost id u posts).2 = posts1 at hfind1 ⊢
      unfold likePost
      rw [hfind1]
      simp only [hidx1]
    have hfid2 : decide (({ post with
        likes := (post.likes ++ [u.id]).eraseIdx post.likes.length } : Post).id = id)
        = true := decide_eq_true (by simpa using hpostid)
    refine ⟨{ post with likes := (post.likes ++ [u.id]).eraseIdx post.likes.length },
      ?_, ?_, ?_⟩
    · rw [hr2]
      exact find?_updateFirst hfind1 hfid2
    · simp [eraseIdx_concat]
    · intro _
      constructor
      · rw [hr1]
        simp
      · rw [hr2]
        simp [eraseIdx_concat]
  | some i =>
    -- the user had liked the post: erase the single occurrence, then push
    have hmem : u.id ∈ post.likes := by
      by_contra hno
      have : post.likes.findIdx? (fun x => x = u.id) = none :=
        List.findIdx?_eq_none_iff.mpr (fun x hx =>
          decide_eq_false (fun he => hno (he ▸ hx)))
      rw [this] at h1
      exact Option.noConfusion h1
    have herase : post.likes.eraseIdx i
        = post.likes.filter (fun x => !(x = u.id)) := by
      rw [eraseIdx_of_findIdx? h1, eraseP_eq_filter_of_countP_le_one hcountP]
    have hlt : i < post.likes.length :=
      (List.findIdx?_eq_some_iff_findIdx_eq.mp h1).1
    have hlen1 : (post.likes.eraseIdx i).length = post.likes.length - 1 := by
      rw [List.length_eraseIdx]
      simp [hlt]
    have hpos : 1 ≤ post.likes.length := by
      cases hp : post.likes with
      | nil => rw [hp] at hmem; simp at hmem
      | cons a as => simp [hp]
    have hr1 : likePost id u posts
        = (.ok ⟨false, (post.likes.eraseIdx i).length, "Like retiré"⟩,
           updateFirst (fun p => p.id = id)
             (fun p => { p with likes := p.likes.eraseIdx i }) posts) := by
      unfold likePost
      rw [hfind]
      simp only [h1]
    have hfid : decide (({ post with likes := post.likes.eraseIdx i } : Post).id = id)
        = true := decide_eq_true (by simpa using hpostid)
    have hfind1 : ((likePost id u posts).2).find? (fun p => p.id = id)
        = some { post with likes := post.likes.eraseIdx i } := by
      rw [hr1]
      exact find?_updateFirst hfind hfid
    have hnotin2 : (post.likes.eraseIdx i).findIdx? (fun x => x = u.id) = none := by
      rw [herase]
      exact List.findIdx?_eq_none_iff.mpr (fun x hx => by
        have := (List.mem_filter.mp hx).2
        simpa using this)
    have hr2 : likePost id u (likePost id u posts).2
        = (.ok ⟨true, (post.likes.eraseIdx i ++ [u.id]).length, "Post liké"⟩,
           updateFirst (fun p => p.id = id)
             (fun p => { p with likes := p.likes ++ [u.id] })
             (likePost id u posts).2) := by
      generalize hgen : (likePost id u posts).2 = posts1 at hfind1 ⊢
      unfold likePost
      rw [hfind1]
      simp only [hnotin2]
    have hfid2 : decide (({ post with
        likes := post.likes.eraseIdx i ++ [u.id] } : Post).id = id)
        = true := decide_eq_true (by simpa using hpostid)
    refine ⟨{ post with likes := post.likes.eraseIdx i ++ [u.id] }, ?_, ?_, ?_⟩
    · rw [hr2]
      exact find?_updateFirst hfind1 hfid2
    · simp only [List.length_append, List.length_cons, List.length_nil, hlen1]
      omega
    · intro hno
      exact absurd hmem hno

/-- C5 witness: a fresh post with no likes, liked twice by a concrete user. -/
theorem C5_like_unlike_witness :
    ∃ post',
      ((likePost "post-1" uBob (likePost "post-1" uBob [postA]).2).2).find?
        (fun p => p.id = "post-1") = some post' ∧
      post'.likes.length = postA.likes.length ∧
      (uBob.id ∉ postA.likes →
        (likePost "post-1" uBob [postA]).1
          = .ok ⟨true, postA.likes.length + 1, "Post liké"⟩ ∧
        (likePost "post-1" uBob (likePost "post-1" uBob [postA]).2).1
          = .ok ⟨false, postA.likes.length, "Like retiré"⟩) :=
  C5_like_unlike_restores "post-1" uBob [postA] postA (by decide) (by decide)

/-- C4: a join request for an existing, non-ended room that is already at
capacity, by a user who is not a participant, returns the "room is full"
error and leaves the store unchanged. -/
theorem C4_join_full_room_rejected (id : String) (pw? : Option String) (u : User)
    (now : Nat) (rooms : List VideoRoom) (room : VideoRoom)
    (hfind : rooms.find? (fun r => r.id = id) = some room)
    (hne : ¬ room.status = .ended)
    (hnp : room.participants.any (fun p => p.id = u.id) = false)
    (hfull : room.maxParticipants ≤ room.participants.length) :
    joinRoom id pw? u now rooms = (.err "La salle est pleine", rooms) := by
  unfold joinRoom
  rw [hfind]
  simp [hne, hnp, hfull]

/-- C4 witness: a concrete full room (capacity 2, two participants) rejects a
third user. -/
theorem C4_join_full_room_witness :
    joinRoom "room-1" none uCarol 5 [roomAB] = (.err "La salle est pleine", [roomAB]) :=
  C4_join_full_room_rejected "room-1" none uCarol 5 [roomAB] roomAB
    (by decide) (by decide) (by decide) (by decide)

/-- C8: room passwords are never disclosed to non-hosts — every room object
returned by the public listing and by the history listing has `password`
blanked, and fetching a single room returns the stored password exactly when
the requester is the host, `undefined` otherwise. -/
theorem C8_room_passwords_hidden :
    (∀ (statusQ : Option RoomStatus) (rooms : List VideoRoom) (v : RoomView),
      v ∈ (getRooms statusQ rooms).1 → v.room.password = none)
    ∧ (∀ (u : User) (page? limit? : Option Nat) (rooms : List VideoRoom)
        (v : RoomView),
      v ∈ (getHistory u page? limit? rooms).1 → v.room.password = none)
    ∧ (∀ (id : String) (u : User) (rooms : List VideoRoom) (v : RoomView),
      getRoom id u rooms = .ok v →
      ∃ room, rooms.find? (fun r => r.id = id) = some room ∧
        v.room.password = (if room.host.id = u.id then room.password else none)) := by
  refine ⟨?_, ?_, ?_⟩
  · intro statusQ rooms v hv
    simp only [getRooms, List.mem_map] at hv
    obtain ⟨r, _, rfl⟩ := hv
    rfl
  · intro u page? limit? rooms v hv
    simp only [getHistory, List.mem_map] at hv
    obtain ⟨r, _, rfl⟩ := hv
    rfl
  · intro id u rooms v hok
    unfold getRoom at hok
    split at hok
    · exact absurd hok (by simp)
    · rename_i room hfind
      refine ⟨room, hfind, ?_⟩
      split at hok
      · exact absurd hok (by simp)
      · injection hok with h
        rw [← h]
        rfl

/-- C8 witness: a concrete room with a password, fetched by a participant who
is not the host, comes back with `password = none`. -/
theorem C8_room_passwords_witness :
    ∃ room, ([roomPw].find? (fun r => r.id = "room-2") = some room) ∧
      (roomView roomPw none).room.password
        = (if room.host.id = uBob.id then room.password else none) :=
  C8_room_passwords_hidden.2.2 "room-2" uBob [roomPw] (roomView roomPw none)
    (by decide)

/-- C6: every PUT update (product by its seller, room by its host, profile of
the current user) is an object-merge: fields present in the body plus
`updatedAt` take the body's values, fields absent from the body keep their
previous values, fields not in the body's shape are untouched, and the store
is the old store with only the first matching entity replaced. -/
theorem C6_put_object_merge :
    (∀ (id : String) (body : UpdateProductRequest) (u : User) (now : Nat)
        (products : List Product) (product : Product),
      products.find? (fun p => p.id = id) = some product →
      product.seller.id = u.id →
      ∃ l₁ l₂, products = l₁ ++ product :: l₂ ∧
        (updateProduct id body (some u) now products).1
          = .ok (applyProductUpdate body now product, "Produit mis à jour avec succès") ∧
        (updateProduct id body (some u) now products).2
          = l₁ ++ applyProductUpdate body now product :: l₂ ∧
        (applyProductUpdate body now product).title = body.title.getD product.title ∧
        (applyProductUpdate body now product).description
          = body.description.getD product.description ∧
        (applyProductUpdate body now product).price = body.price.getD product.price ∧
        (applyProductUpdate body now product).condition
          = body.condition.getD product.condition ∧
        (applyProductUpdate body now product).images = body.images.getD product.images ∧
        (body.location = none →
          (applyProductUpdate body now product).location = product.location) ∧
        (∀ v, body.location = some v →
          (applyProductUpdate body now product).location = some v) ∧
        (applyProductUpdate body now product).status = body.status.getD product.status ∧
        (applyProductUpdate body now product).tags = body.tags.getD product.tags ∧
        (applyProductUpdate body now product).updatedAt = now ∧
        (applyProductUpdate body now product).id = product.id ∧
        (applyProductUpdate body now product).seller = product.seller ∧
        (applyProductUpdate body now product).currency = product.currency ∧
        (applyProductUpdate body now product).category = product.category ∧
        (applyProductUpdate body now product).createdAt = product.createdAt)
    ∧ (∀ (id : String) (body : UpdateRoomRequest) (u : User) (now : Nat)
        (rooms : List VideoRoom) (room : VideoRoom),
      rooms.find? (fun r => r.id = id) = some room →
      room.host.id = u.id →
      ¬ room.status = .ended →
      ∃ l₁ l₂, rooms = l₁ ++ room :: l₂ ∧
        (updateRoom id body u now rooms).1
          = .ok (⟨applyRoomUpdate body now room,
              (applyRoomUpdate body now room).participants.length⟩,
              "Salle mise à jour avec succès") ∧
        (updateRoom id body u now rooms).2
          = l₁ ++ applyRoomUpdate body now room :: l₂ ∧
        (applyRoomUpdate body now room).name = body.name.getD room.name ∧
        (body.description = none →
          (applyRoomUpdate body now room).description = room.description) ∧
        (∀ v, body.description = some v →
          (applyRoomUpdate body now room).description = some v) ∧
        (applyRoomUpdate body now room).isPrivate = body.isPrivate.getD room.isPrivate ∧
        (applyRoomUpdate body now room).maxParticipants
          = body.maxParticipants.getD room.maxParticipants ∧
        (body.password = none →
          (applyRoomUpdate body now room).password = room.password) ∧
        (∀ v, body.password = some v →
          (applyRoomUpdate body now room).password = some v) ∧
        (applyRoomUpdate body now room).updatedAt = now ∧
        (applyRoomUpdate body now room).id = room.id ∧
        (applyRoomUpdate body now room).host = room.host ∧
        (applyRoomUpdate body now room).participants = room.participants ∧
        (applyRoomUpdate body now room).status = room.status ∧
        (applyRoomUpdate body now room).createdAt = room.createdAt ∧
        (applyRoomUpdate body now room).endedAt = room.endedAt)
    ∧ (∀ (u : User) (body : UpdateProfileRequest) (now : Nat) (users : List User),
      users.find? (fun x => x.id = u.id) = some u →
      ∃ l₁ l₂, users = l₁ ++ u :: l₂ ∧
        (updateProfile u body now users).1
          = (applyProfileUpdate body now u, "Profil mis à jour avec succès") ∧
        (updateProfile u body now users).2
          = l₁ ++ applyProfileUpdate body now u :: l₂ ∧
        (applyProfileUpdate body now u).firstName = body.firstName.getD u.firstName ∧
        (applyProfileUpdate body now u).lastName = body.lastName.getD u.lastName ∧
        (body.bio = none → (applyProfileUpdate body now u).bio = u.bio) ∧
        (∀ v, body.bio = some v → (applyProfileUpdate body now u).bio = some v) ∧
        (body.location = none → (applyProfileUpdate body now u).location = u.location) ∧
        (∀ v, body.location = some v →
          (applyProfileUpdate body now u).location = some v) ∧
        (body.website = none → (applyProfileUpdate body now u).website = u.website) ∧
        (∀ v, body.website = some v →
          (applyProfileUpdate body now u).website = some v) ∧
        (body.avatar = none → (applyProfileUpdate body now u).avatar = u.avatar) ∧
        (∀ v, body.avatar = some v →
          (applyProfileUpdate body now u).avatar = some v) ∧
        (applyProfileUpdate body now u).updatedAt = now ∧
        (applyProfileUpdate body now u).id = u.id ∧
        (applyProfileUpdate body now u).email = u.email ∧
        (applyProfileUpdate body now u).username = u.username ∧
        (applyProfileUpdate body now u).createdAt = u.createdAt) := by
  refine ⟨?_, ?_, ?_⟩
  · intro id body u now products product hfind hseller
    obtain ⟨l₁, l₂, hsplit, _, hupd⟩ :=
      updateFirst_decomp (applyProductUpdate body now) hfind
    have hr : updateProduct id body (some u) now products
        = (.ok (applyProductUpdate body now product, "Produit mis à jour avec succès"),
           updateFirst (fun p => p.id = id) (applyProductUpdate body now) products) := by
      unfold updateProduct
      simp only [hfind]
      rw [if_neg (fun hc => hc hseller)]
    refine ⟨l₁, l₂, hsplit, by rw [hr], by rw [hr, hupd], rfl, rfl, rfl, rfl, rfl,
      ?_, ?_, rfl, rfl, rfl, rfl, rfl, rfl, rfl, rfl⟩
    · intro h
      simp [applyProductUpdate, mergeOpt, h]
    · intro v h
      simp [applyProductUpdate, mergeOpt, h]
  · intro id body u now rooms room hfind hhost hne
    obtain ⟨l₁, l₂, hsplit, _, hupd⟩ :=
      updateFirst_decomp (applyRoomUpdate body now) hfind
    have hr : updateRoom id body u now rooms
        = (.ok (⟨applyRoomUpdate body now room,
              (applyRoomUpdate body now room).participants.length⟩,
              "Salle mise à jour avec succès"),
           updateFirst (fun r => r.id = id) (applyRoomUpdate body now) rooms) := by
      unfold updateRoom
      simp only [hfind]
      rw [if_neg (fun hc => hc hhost), if_neg hne]
    refine ⟨l₁, l₂, hsplit, by rw [hr], by rw [hr, hupd], rfl, ?_, ?_, rfl, rfl,
      ?_, ?_, rfl, rfl, rfl, rfl, rfl, rfl, rfl⟩
    · intro h
      simp [applyRoomUpdate, mergeOpt, h]
    · intro v h
      simp [applyRoomUpdate, mergeOpt, h]
    · intro h
      simp [applyRoomUpdate, mergeOpt, h]
    · intro v h
      simp [applyRoomUpdate, mergeOpt, h]
  · intro u body now users hfind
    obtain ⟨l₁, l₂, hsplit, _, hupd⟩ :=
      updateFirst_decomp (applyProfileUpdate body now) hfind
    refine ⟨l₁, l₂, hsplit, rfl, by
        show updateFirst (fun x => x.id = u.id) (applyProfileUpdate body now) users
          = l₁ ++ applyProfileUpdate body now u :: l₂
        rw [hupd], rfl, rfl,
      ?_, ?_, ?_, ?_, ?_, ?_, ?_, ?_, rfl, rfl, rfl, rfl, rfl⟩ <;>
      first
        | (intro h; simp [applyProfileUpdate, mergeOpt, h])
        | (intro v h; simp [applyProfileUpdate, mergeOpt, h])

/-- C6 witness: a concrete price-only product update by the seller. -/
theorem C6_put_object_merge_witness :
    ∃ l₁ l₂, [prodA] = l₁ ++ prodA :: l₂ ∧
      (updateProduct "prod-1" { price := some 50 } (some uAlice) 9 [prodA]).1
        = .ok (applyProductUpdate { price := some 50 } 9 prodA,
            "Produit mis à jour avec succès") ∧
      (updateProduct "prod-1" { price := some 50 } (some uAlice) 9 [prodA]).2
        = l₁ ++ applyProductUpdate { price := some 50 } 9 prodA :: l₂ ∧
      (applyProductUpdate { price := some 50 } 9 prodA).title
        = ({ price := some 50 } : UpdateProductRequest).title.getD prodA.title ∧
      (applyProductUpdate { price := some 50 } 9 prodA).description
        = ({ price := some 50 } : UpdateProductRequest).description.getD prodA.description ∧
      (applyProductUpdate { price := some 50 } 9 prodA).price
        = ({ price := some 50 } : UpdateProductRequest).price.getD prodA.price ∧
      (applyProductUpdate { price := some 50 } 9 prodA).condition
        = ({ price := some 50 } : UpdateProductRequest).condition.getD prodA.condition ∧
      (applyProductUpdate { price := some 50 } 9 prodA).images
        = ({ price := some 50 } : UpdateProductRequest).images.getD prodA.images ∧
      (({ price := some 50 } : UpdateProductRequest).location = none →
        (applyProductUpdate { price := some 50 } 9 prodA).location = prodA.location) ∧
      (∀ v, ({ price := some 50 } : UpdateProductRequest).location = some v →
        (applyProductUpdate { price := some 50 } 9 prodA).location = some v) ∧
      (applyProductUpdate { price := some 50 } 9 prodA).status
        = ({ price := some 50 } : UpdateProductRequest).status.getD prodA.status ∧
      (applyProductUpdate { price := some 50 } 9 prodA).tags
        = ({ price := some 50 } : UpdateProductRequest).tags.getD prodA.tags ∧
      (applyProductUpdate { price := some 50 } 9 prodA).updatedAt = 9 ∧
      (applyProductUpdate { price := some 50 } 9 prodA).id = prodA.id ∧
      (applyProductUpdate { price := some 50 } 9 prodA).seller = prodA.seller ∧
      (applyProductUpdate { price := some 50 } 9 prodA).currency = prodA.currency ∧
      (applyProductUpdate { price := some 50 } 9 prodA).category = prodA.category ∧
      (applyProductUpdate { price := some 50 } 9 prodA).createdAt = prodA.createdAt :=
  C6_put_object_merge.1 "prod-1" { price := some 50 } uAlice 9 [prodA] prodA
    (by decide) (by decide)

/-- C3 counterexample: user registration does fail on account of an
already-stored entity with the same field values — registering a second user
with an already-stored email is rejected. -/
theorem C3_registration_enforces_uniqueness :
    (register
      { email := "alice@example.com", username := "alice2", password := "password1"
        firstName := "A", lastName := "B" } "u-new" 5 [uAlice] []).1
      = .err "Un utilisateur avec cet email ou ce nom d'utilisateur existe déjà" := by
  decide

/-- C3 amended: no creation operation except user registration enforces
uniqueness — posts, comments, products and video rooms are always created
regardless of identical stored entities — while registration rejects exactly
the requests whose email or username is already stored. -/
theorem C3_uniqueness_only_in_registration :
    (∀ (u : User) (body : CreatePostRequest) (newId : String) (now : Nat)
        (posts : List Post),
      ∃ p m, createPost u body newId now posts = ((p, m), p :: posts))
    ∧ (∀ (u : User) (body : CreateProductRequest) (newId : String) (now : Nat)
        (products : List Product),
      ∃ p m, createProduct (some u) body newId now products = (.ok (p, m), p :: products))
    ∧ (∀ (u : User) (body : CreateRoomRequest) (newId : String) (now : Nat)
        (rooms : List VideoRoom),
      ∃ r m, createRoom u body newId now rooms = ((r, m), r :: rooms))
    ∧ (∀ (id content : String) (u : User) (newId : String) (now : Nat)
        (posts : List Post) (post : Post),
      posts.find? (fun p => p.id = id) = some post →
      ∃ c m, (addComment id content u newId now posts).1 = .ok (c, m))
    ∧ (∀ (body : RegisterRequest) (newId : String) (now : Nat)
        (users : List User) (creds : List (String × String)),
      (∃ w ∈ users, w.email = body.email ∨ w.username = body.username) →
      register body newId now users creds
        = (.err "Un utilisateur avec cet email ou ce nom d'utilisateur existe déjà",
           (users, creds)))
    ∧ (∀ (body : RegisterRequest) (newId : String) (now : Nat)
        (users : List User) (creds : List (String × String)),
      (∀ w ∈ users, ¬ w.email = body.email ∧ ¬ w.username = body.username) →
      ∃ nu tk, (register body newId now users creds).1 = .ok (nu, tk)) := by
  refine ⟨?_, ?_, ?_, ?_, ?_, ?_⟩
  · intro u body newId now posts
    exact ⟨_, _, rfl⟩
  · intro u body newId now products
    exact ⟨_, _, rfl⟩
  · intro u body newId now rooms
    exact ⟨_, _, rfl⟩
  · intro id content u newId now posts post hfind
    refine ⟨Comment.mk newId content u id now now, "Commentaire ajouté avec succès", ?_⟩
    unfold addComment
    rw [hfind]
  · intro body newId now users creds hdup
    obtain ⟨w, hw, hww⟩ := hdup
    unfold register
    rw [if_pos]
    exact List.any_eq_true.mpr ⟨w, hw, by
      rcases hww with h | h <;> simp [h]⟩
  · intro body newId now users creds hfresh
    refine ⟨User.mk newId body.email body.username body.firstName body.lastName
      none none none none now now, JwtPayload.mk newId body.email, ?_⟩
    have hneg : ¬ (users.any fun u =>
        decide (u.email = body.email) || decide (u.username = body.username)) = true := by
      simp only [List.any_eq_true, not_exists]
      rintro x ⟨hx, hxor⟩
      rcases Bool.or_eq_true_iff.mp hxor with h | h
      · exact (hfresh x hx).1 (by simpa using h)
      · exact (hfresh x hx).2 (by simpa using h)
    unfold register
    rw [if_neg hneg]

/-- C3 witness for the amended claim: the duplicate-email register request is
rejected with the store unchanged. -/
theorem C3_uniqueness_witness :
    register
      { email := "alice@example.com", username := "alice2", password := "password1"
        firstName := "A", lastName := "B" } "u-new" 5 [uAlice] []
      = (.err "Un utilisateur avec cet email ou ce nom d'utilisateur existe déjà",
         ([uAlice], [])) :=
  C3_uniqueness_only_in_registration.2.2.2.2.1
    { email := "alice@example.com", username := "alice2", password := "password1"
      firstName := "A", lastName := "B" } "u-new" 5 [uAlice] []
    ⟨uAlice, by decide, Or.inl (by decide)⟩

theorem outcomeOf_ne_threw (r : HResp α) (m : String) :
    ¬ outcomeOf r = .threw m := by
  cases r <;> simp [outcomeOf]

theorem joinOutcome_ne_threw (r : JoinResp) (m : String) :
    ¬ joinOutcome r = .threw m := by
  cases r <;> simp [joinOutcome]

theorem strictAuth_error_msg {tok : BearerToken} {users : List User} {m : String}
    (h : strictAuth tok users = .error m) :
    m = "Token manquant" ∨ m = "Token invalide" ∨ m = "Utilisateur non trouvé" := by
  cases tok with
  | missing => simp [strictAuth] at h; simp [h]
  | invalid => simp [strictAuth] at h; simp [h]
  | valid p =>
    simp only [strictAuth] at h
    split at h
    · simp at h; simp [h]
    · simp at h

/-- C2: the modules whose routes require authentication (video, posts, users)
share an auth middleware that throws — rather than returning a tagged object —
on a missing or invalid bearer token; the marketplace middleware instead
resolves to a null user without throwing and its handlers answer with a tagged
error object; across the whole dispatcher the only thrown messages are the
strict middleware's. -/
theorem C2_auth_middleware_throws :
    (∀ users : List User,
      strictAuth .missing users = .error "Token manquant"
      ∧ strictAuth .invalid users = .error "Token invalide")
    ∧ (∀ users : List User,
      marketplaceAuth .missing users = none
      ∧ marketplaceAuth .invalid users = none)
    ∧ (∀ (body : CreateProductRequest) (newId : String) (now : Nat)
        (products : List Product),
      createProduct none body newId now products
        = (.err "Authentification requise", products))
    ∧ (∀ (req : Request) (s : GlobalState) (m : String),
      (dispatch req s).1 = .threw m →
      m = "Token manquant" ∨ m = "Token invalide" ∨ m = "Utilisateur non trouvé") := by
  refine ⟨fun users => ⟨rfl, rfl⟩, fun users => ⟨rfl, rfl⟩, fun _ _ _ _ => rfl, ?_⟩
  intro req s m h
  cases req <;> simp only [dispatch] at h <;> try split at h
  all_goals try exact absurd h (outcomeOf_ne_threw _ _)
  all_goals try exact absurd h (joinOutcome_ne_threw _ _)
  all_goals try simp at h
  all_goals (rename_i htok; subst h; exact strictAuth_error_msg htok)

/-- C2 witness: a request with no bearer token to an auth-requiring module
throws the missing-token message. -/
theorem C2_auth_middleware_witness :
    "Token manquant" = "Token manquant" ∨ "Token manquant" = "Token invalide"
      ∨ "Token manquant" = "Utilisateur non trouvé" :=
  C2_auth_middleware_throws.2.2.2 (.uGetMe .missing) initialState "Token manquant"
    (by decide)

theorem joinApply_participants (room : VideoRoom) (u : User) (now : Nat) :
    (joinApply room u now).participants = room.participants ++ [u] := rfl

theorem joinRoom_snd (id : String) (pw? : Option String) (u : User) (now : Nat)
    (rooms : List VideoRoom) :
    (joinRoom id pw? u now rooms).2 = rooms ∨
    ∃ room, rooms.find? (fun r => r.id = id) = some room ∧
      (room.participants.any (fun p => p.id = u.id)) = false ∧
      (joinRoom id pw? u now rooms).2
        = updateFirst (fun r => r.id = id) (fun r => joinApply r u now) rooms := by
  unfold joinRoom
  split
  · exact Or.inl rfl
  · rename_i room hfind
    split
    · exact Or.inl rfl
    · split
      · exact Or.inl rfl
      · split
        · exact Or.inl rfl
        · split
          · exact Or.inl rfl
          · rename_i hne hnp hfull hpw
            exact Or.inr ⟨room, hfind, by simpa using hnp, rfl⟩

theorem leaveRoom_snd (id : String) (u : User) (now : Nat)
    (rooms : List VideoRoom) :
    (leaveRoom id u now rooms).2 = rooms ∨
    ∃ idx, (leaveRoom id u now rooms).2
        = updateFirst (fun r => r.id = id) (fun r => leaveApply r idx u now) rooms := by
  unfold leaveRoom
  split
  · exact Or.inl rfl
  · split
    · exact Or.inl rfl
    · rename_i idx hidx
      exact Or.inr ⟨idx, rfl⟩

theorem endRoom_snd (id : String) (u : User) (now : Nat)
    (rooms : List VideoRoom) :
    (endRoom id u now rooms).2 = rooms ∨
    (endRoom id u now rooms).2
      = updateFirst (fun r => r.id = id)
          (fun r => { r with status := .ended, endedAt := some now, updatedAt := now })
          rooms := by
  unfold endRoom
  split
  · exact Or.inl rfl
  · split
    · exact Or.inl rfl
    · split
      · exact Or.inl rfl
      · exact Or.inr rfl

theorem updateRoom_snd (id : String) (body : UpdateRoomRequest) (u : User)
    (now : Nat) (rooms : List VideoRoom) :
    (updateRoom id body u now rooms).2 = rooms ∨
    (updateRoom id body u now rooms).2
      = updateFirst (fun r => r.id = id) (applyRoomUpdate body now) rooms := by
  unfold updateRoom
  split
  · exact Or.inl rfl
  · split
    · exact Or.inl rfl
    · split
      · exact Or.inl rfl
      · exact Or.inr rfl

theorem applyRoomOp_preserves_nodup (op : RoomOp) (rooms : List VideoRoom)
    (hinv : ∀ r ∈ rooms, participantsNodup r) :
    ∀ r ∈ applyRoomOp op rooms, participantsNodup r := by
  cases op with
  | create u body newId now =>
    intro r hr
    rcases List.mem_cons.mp hr with rfl | hr
    · show ((([u] : List User)).map (fun p => p.id)).Nodup
      simp
    · exact hinv r hr
  | join id pw? u now =>
    intro r hr
    rcases joinRoom_snd id pw? u now rooms with hsame | ⟨room, hfind, hany, hupd⟩
    · rw [show applyRoomOp (.join id pw? u now) rooms = (joinRoom id pw? u now rooms).2
        from rfl, hsame] at hr
      exact hinv r hr
    · rw [show applyRoomOp (.join id pw? u now) rooms = (joinRoom id pw? u now rooms).2
        from rfl, hupd] at hr
      rcases mem_updateFirst hr with hmem | ⟨a, hfa, rfl⟩
      · exact hinv r hmem
      · have ha : a = room := by rw [hfa] at hfind; exact Option.some.inj hfind
        subst ha
        have hnd : participantsNodup a := hinv a (List.mem_of_find?_eq_some hfa)
        show ((joinApply a u now).participants.map (fun p => p.id)).Nodup
        rw [joinApply_participants, List.map_append]
        rw [List.nodup_append]
        refine ⟨hnd, by simp, ?_⟩
        intro x hx
        simp only [List.mem_map] at hx
        obtain ⟨p, hp, rfl⟩ := hx
        have := List.any_eq_false.mp hany p hp
        simp only [List.map_cons, List.map_nil, List.mem_singleton]
        simpa using this
  | leave id u now =>
    intro r hr
    rcases leaveRoom_snd id u now rooms with hsame | ⟨idx, hupd⟩
    · rw [show applyRoomOp (.leave id u now) rooms = (leaveRoom id u now rooms).2
        from rfl, hsame] at hr
      exact hinv r hr
    · rw [show applyRoomOp (.leave id u now) rooms = (leaveRoom id u now rooms).2
        from rfl, hupd] at hr
      rcases mem_updateFirst hr with hmem | ⟨a, hfa, rfl⟩
      · exact hinv r hmem
      · have hnd : participantsNodup a := hinv a (List.mem_of_find?_eq_some hfa)
        show ((leaveApply a idx u now).participants.map (fun p => p.id)).Nodup
        rw [(leaveApply_spec a idx u now).2.1]
        have hnd' : (a.participants.map (fun p => p.id)).Nodup := hnd
        exact ((a.participants.eraseIdx_sublist idx).map (fun p => p.id)).nodup hnd'
  | endR id u now =>
    intro r hr
    rcases endRoom_snd id u now rooms with hsame | hupd
    · rw [show applyRoomOp (.endR id u now) rooms = (endRoom id u now rooms).2
        from rfl, hsame] at hr
      exact hinv r hr
    · rw [show applyRoomOp (.endR id u now) rooms = (endRoom id u now rooms).2
        from rfl, hupd] at hr
      rcases mem_updateFirst hr with hmem | ⟨a, hfa, rfl⟩
      · exact hinv r hmem
      · exact hinv a (List.mem_of_find?_eq_some hfa)
  | update id body u now =>
    intro r hr
    rcases updateRoom_snd id body u now rooms with hsame | hupd
    · rw [show applyRoomOp (.update id body u now) rooms = (updateRoom id body u now rooms).2
        from rfl, hsame] at hr
      exact hinv r hr
    · rw [show applyRoomOp (.update id body u now) rooms = (updateRoom id body u now rooms).2
        from rfl, hupd] at hr
      rcases mem_updateFirst hr with hmem | ⟨a, hfa, rfl⟩
      · exact hinv r hmem
      · exact hinv a (List.mem_of_find?_eq_some hfa)

theorem foldl_rooms_nodup (ops : List RoomOp) :
    ∀ (rooms : List VideoRoom), (∀ r ∈ rooms, participantsNodup r) →
    ∀ r ∈ ops.foldl (fun rs op => applyRoomOp op rs) rooms, participantsNodup r := by
  induction ops with
  | nil => intro rooms h; simpa using h
  | cons op rest ih =>
    intro rooms h
    simp only [List.foldl_cons]
    exact ih _ (applyRoomOp_preserves_nodup op rooms h)

/-- C9: in every video-room state reachable from the empty store through
sequences of create, join, leave, end and update operations, each room's
participant list carries every user id at most once. -/
theorem C9_participants_unique (ops : List RoomOp) (r : VideoRoom)
    (hr : r ∈ runRoomOps ops) : participantsNodup r :=
  foldl_rooms_nodup ops [] (by simp) r hr

/-- C9 witness: the state after one create and one join holds rooms whose
participant ids are pairwise distinct. -/
theorem C9_participants_unique_witness :
    participantsNodup
      { id := "room-9", name := "Standup", description := none, host := uAlice
        participants := [uAlice, uBob], isPrivate := false, maxParticipants := 5
        password := none, status := .active, createdAt := 0, updatedAt := 3
        endedAt := none } :=
  C9_participants_unique
    [.create uAlice { name := "Standup", isPrivate := false, maxParticipants := 5 }
      "room-9" 0,
     .join "room-9" none uBob 3]
    { id := "room-9", name := "Standup", description := none, host := uAlice
      participants := [uAlice, uBob], isPrivate := false, maxParticipants := 5
      password := none, status := .active, createdAt := 0, updatedAt := 3
      endedAt := none }
    (by decide)

theorem outcomeOf_errObj (r : HResp α) (m : String) (h : outcomeOf r = .errObj m) :
    r = .err m := by
  cases r <;> simp_all [outcomeOf]

theorem joinOutcome_errObj (r : JoinResp) (m : String) (h : joinOutcome r = .errObj m) :
    r = .err m := by
  cases r <;> simp_all [joinOutcome]

theorem register_err {body : RegisterRequest} {newId : String} {now : Nat}
    {users : List User} {creds : List (String × String)} {m : String} :
    (register body newId now users creds).1 = .err m →
    (register body newId now users creds).2 = (users, creds) := by
  unfold register
  repeat' split
  all_goals (intro h; first | rfl | simp at h)

theorem updatePost_err {id : String} {body : CreatePostRequest} {u : User}
    {now : Nat} {posts : List Post} {m : String} :
    (updatePost id body u now posts).1 = .err m →
    (updatePost id body u now posts).2 = posts := by
  unfold updatePost
  repeat' split
  all_goals (intro h; first | rfl | simp at h)

theorem deletePost_err {id : String} {u : User} {posts : List Post} {m : String} :
    (deletePost id u posts).1 = .err m → (deletePost id u posts).2 = posts := by
  unfold deletePost
  repeat' split
  all_goals (intro h; first | rfl | simp at h)

theorem likePost_err {id : String} {u : User} {posts : List Post} {m : String} :
    (likePost id u posts).1 = .err m → (likePost id u posts).2 = posts := by
  unfold likePost
  repeat' split
  all_goals (intro h; first | rfl | simp at h)

theorem addComment_err {id content : String} {u : User} {newId : String}
    {now : Nat} {posts : List Post} {m : String} :
    (addComment id content u newId now posts).1 = .err m →
    (addComment id content u newId now posts).2 = posts := by
  unfold addComment
  repeat' split
  all_goals (intro h; first | rfl | simp at h)

theorem createProduct_err {u? : Option User} {body : CreateProductRequest}
    {newId : String} {now : Nat} {products : List Product} {m : String} :
    (createProduct u? body newId now products).1 = .err m →
    (createProduct u? body newId now products).2 = products := by
  unfold createProduct
  repeat' split
  all_goals (intro h; first | rfl | simp at h)

theorem updateProduct_err {id : String} {body : UpdateProductRequest}
    {u? : Option User} {now : Nat} {products : List Product} {m : String} :
    (updateProduct id body u? now products).1 = .err m →
    (updateProduct id body u? now products).2 = products := by
  unfold updateProduct
  repeat' split
  all_goals (intro h; first | rfl | simp at h)

theorem deleteProduct_err {id : String} {u? : Option User}
    {products : List Product} {m : String} :
    (deleteProduct id u? products).1 = .err m →
    (deleteProduct id u? products).2 = products := by
  unfold deleteProduct
  repeat' split
  all_goals (intro h; first | rfl | simp at h)

theorem markSold_err {id : String} {u? : Option User} {now : Nat}
    {products : List Product} {m : String} :
    (markSold id u? now products).1 = .err m →
    (markSold id u? now products).2 = products := by
  unfold markSold
  repeat' split
  all_goals (intro h; first | rfl | simp at h)

theorem joinRoom_err {id : String} {pw? : Option String} {u : User} {now : Nat}
    {rooms : List VideoRoom} {m : String} :
    (joinRoom id pw? u now rooms).1 = .err m →
    (joinRoom id pw? u now rooms).2 = rooms := by
  unfold joinRoom
  repeat' split
  all_goals (intro h; first | rfl | simp at h)

theorem leaveRoom_err {id : String} {u : User} {now : Nat}
    {rooms : List VideoRoom} {m : String} :
    (leaveRoom id u now rooms).1 = .err m →
    (leaveRoom id u now rooms).2 = rooms := by
  unfold leaveRoom
  repeat' split
  all_goals (intro h; first | rfl | simp at h)

theorem endRoom_err {id : String} {u : User} {now : Nat}
    {rooms : List VideoRoom} {m : String} :
    (endRoom id u now rooms).1 = .err m →
    (endRoom id u now rooms).2 = rooms := by
  unfold endRoom
  repeat' split
  all_goals (intro h; first | rfl | simp at h)

theorem updateRoom_err {id : String} {body : UpdateRoomRequest} {u : User}
    {now : Nat} {rooms : List VideoRoom} {m : String} :
    (updateRoom id body u now rooms).1 = .err m →
    (updateRoom id body u now rooms).2 = rooms := by
  unfold updateRoom
  repeat' split
  all_goals (intro h; first | rfl | simp at h)

/-- C10: every handler is atomic on failure — whenever a request's response is
an `error: true` object, all five module-level stores are exactly as they were
before the request was handled. -/
theorem C10_error_responses_leave_state_unchanged (req : Request) (s : GlobalState)
    (m : String) (h : (dispatch req s).1 = .errObj m) : (dispatch req s).2 = s := by
  cases req <;> simp only [dispatch] at h ⊢ <;>
    try (split at h <;> rename_i heq)
  all_goals try simp only [heq]
  all_goals try simp at h
  all_goals
    first
    | (have h2 := outcomeOf_errObj _ _ h
       first
       | rw [register_err h2]
       | rw [updatePost_err h2]
       | rw [deletePost_err h2]
       | rw [likePost_err h2]
       | rw [addComment_err h2]
       | rw [createProduct_err h2]
       | rw [updateProduct_err h2]
       | rw [deleteProduct_err h2]
       | rw [markSold_err h2]
       | rw [leaveRoom_err h2]
       | rw [endRoom_err h2]
       | rw [updateRoom_err h2])
    | (have h2 := joinOutcome_errObj _ _ h
       rw [joinRoom_err h2])

/-- C10 witness: a concrete failing request (liking a post that does not
exist) leaves the whole state untouched. -/
theorem C10_error_responses_witness :
    (dispatch (.pLike (.valid ⟨"u-alice", "alice@example.com"⟩) "missing-post")
      { initialState with users := [uAlice] }).2
      = { initialState with users := [uAlice] } :=
  C10_error_responses_leave_state_unchanged
    (.pLike (.valid ⟨"u-alice", "alice@example.com"⟩) "missing-post")
    { initialState with users := [uAlice] } "Post non trouvé" (by decide)

theorem sortLe_trans (k : SortKey) (o : SortOrder) :
    ∀ a b c, sortLe k o a b = true → sortLe k o b c = true →
      sortLe k o a c = true := by
  intro a b c hab hbc
  cases k <;> cases o <;>
    simp only [sortLe, sortKeyLt, jsStrLt, Bool.not_eq_true', decide_eq_false_iff_not,
      not_lt] at hab hbc ⊢ <;>
    first
      | omega
      | exact le_trans hab hbc
      | exact le_trans hbc hab

theorem sortLe_total (k : SortKey) (o : SortOrder) :
    ∀ a b, (sortLe k o a b || sortLe k o b a) = true := by
  intro a b
  cases k <;> cases o <;>
    simp only [sortLe, sortKeyLt, jsStrLt, Bool.or_eq_true, Bool.not_eq_true',
      decide_eq_false_iff_not, not_lt] <;>
    first
      | omega
      | exact le_total _ _

theorem filterProducts_eq_filter (q : ListQuery) (products : List Product)
    (hcat : q.category ≠ some "") (hsearch : q.search ≠ some "") :
    filterProducts q products = products.filter (fun p => matchesQuery q p) := by
  obtain ⟨page, limit, category, minPrice, maxPrice, condition, status, search,
    sortBy, sortOrder⟩ := q
  rcases category with _ | c <;> rcases search with _ | sr
  · cases minPrice <;> cases maxPrice <;> cases condition <;>
      simp only [filterProducts, matchesQuery] <;>
      (try simp only [List.filter_filter]) <;>
      refine List.filter_congr (fun x _ => ?_) <;>
      first
        | rfl
        | simp [Bool.and_assoc, Bool.and_comm, Bool.and_left_comm]
  · have hs : ¬ sr = "" := by simpa using hsearch
    cases minPrice <;> cases maxPrice <;> cases condition <;>
      simp only [filterProducts, matchesQuery, if_neg hs] <;>
      (try simp only [List.filter_filter]) <;>
      refine List.filter_congr (fun x _ => ?_) <;>
      first
        | rfl
        | simp [Bool.and_assoc, Bool.and_comm, Bool.and_left_comm]
  · have hc : ¬ c = "" := by simpa using hcat
    cases minPrice <;> cases maxPrice <;> cases condition <;>
      simp only [filterProducts, matchesQuery, if_neg hc] <;>
      (try simp only [List.filter_filter]) <;>
      refine List.filter_congr (fun x _ => ?_) <;>
      first
        | rfl
        | simp [Bool.and_assoc, Bool.and_comm, Bool.and_left_comm]
  · have hc : ¬ c = "" := by simpa using hcat
    have hs : ¬ sr = "" := by simpa using hsearch
    cases minPrice <;> cases maxPrice <;> cases condition <;>
      simp only [filterProducts, matchesQuery, if_neg hc, if_neg hs] <;>
      (try simp only [List.filter_filter]) <;>
      refine List.filter_congr (fun x _ => ?_) <;>
      first
        | rfl
        | simp [Bool.and_assoc, Bool.and_comm, Bool.and_left_comm]

theorem jsCeilDiv_spec (t l : Nat) (hl : 0 < l) :
    t ≤ jsCeilDiv t l * l ∧ ∀ mm, t ≤ mm * l → jsCeilDiv t l ≤ mm := by
  constructor
  · have hdm := Nat.div_add_mod (t + l - 1) l
    have hml : (t + l - 1) % l < l := Nat.mod_lt _ hl
    show t ≤ (t + l - 1) / l * l
    rw [Nat.mul_comm]
    generalize hq : l * ((t + l - 1) / l) = a at hdm ⊢
    omega
  · intro mm hmm'
    by_contra hgt
    push_neg at hgt
    have hsucc : mm + 1 ≤ jsCeilDiv t l := hgt
    have h1 : jsCeilDiv t l * l ≤ t + l - 1 := Nat.div_mul_le_self _ _
    have h2 : (mm + 1) * l ≤ jsCeilDiv t l * l := Nat.mul_le_mul_right _ hsucc
    have h3 : mm * l + l ≤ jsCeilDiv t l * l := by
      calc mm * l + l = (mm + 1) * l := by ring
        _ ≤ _ := h2
    generalize hq : jsCeilDiv t l * l = a at h1 h3
    generalize hb : mm * l = b at h3 hmm'
    omega

/-- C7: for every validated query (limits positive, a provided category or
search term non-empty), the marketplace listing returns exactly the page-slice
of a sorted permutation of the stored products that satisfy the status filter
(default `available`) and every provided filter, with `pagination.total` the
number of filtered products and `totalPages` the ceiling of `total / limit`. -/
theorem C7_marketplace_listing (q : ListQuery) (products : List Product)
    (hcat : q.category ≠ some "") (hsearch : q.search ≠ some "")
    (hlimit : 0 < q.limit.getD 20) :
    ∃ sorted : List Product,
      sorted.Perm (products.filter (fun p => matchesQuery q p)) ∧
      List.Pairwise (fun a b =>
        sortLe (q.sortBy.getD .createdAt) (q.sortOrder.getD .desc) a b = true) sorted ∧
      (listProducts q products).1
        = (sorted.drop ((q.page.getD 1 - 1) * q.limit.getD 20)).take (q.limit.getD 20) ∧
      (listProducts q products).2.page = q.page.getD 1 ∧
      (listProducts q products).2.limit = q.limit.getD 20 ∧
      (listProducts q products).2.total
        = (products.filter (fun p => matchesQuery q p)).length ∧
      (products.filter (fun p => matchesQuery q p)).length
        ≤ (listProducts q products).2.totalPages * q.limit.getD 20 ∧
      (∀ mm, (products.filter (fun p => matchesQuery q p)).length
          ≤ mm * q.limit.getD 20 →
        (listProducts q products).2.totalPages ≤ mm) := by
  have hfe := filterProducts_eq_filter q products hcat hsearch
  refine ⟨(filterProducts q products).mergeSort
      (sortLe (q.sortBy.getD .createdAt) (q.sortOrder.getD .desc)),
    ?_, ?_, rfl, rfl, rfl, ?_, ?_, ?_⟩
  · rw [← hfe]
    exact List.mergeSort_perm _ _
  · exact List.sorted_mergeSort
      (sortLe_trans (q.sortBy.getD .createdAt) (q.sortOrder.getD .desc))
      (sortLe_total (q.sortBy.getD .createdAt) (q.sortOrder.getD .desc))
      (filterProducts q products)
  · show (filterProducts q products).length = _
    rw [hfe]
  · show (products.filter (fun p => matchesQuery q p)).length
      ≤ jsCeilDiv (filterProducts q products).length (q.limit.getD 20) * q.limit.getD 20
    rw [hfe]
    exact (jsCeilDiv_spec _ _ hlimit).1
  · intro mm hmm'
    show jsCeilDiv (filterProducts q products).length (q.limit.getD 20) ≤ mm
    rw [hfe]
    exact (jsCeilDiv_spec _ _ hlimit).2 mm hmm'

/-- C7 witness: the default query over a one-product store. -/
theorem C7_marketplace_listing_witness :
    ∃ sorted : List Product,
      sorted.Perm ([prodA].filter (fun p => matchesQuery {} p)) ∧
      List.Pairwise (fun a b => sortLe .createdAt .desc a b = true) sorted ∧
      (listProducts {} [prodA]).1 = (sorted.drop ((1 - 1) * 20)).take 20 ∧
      (listProducts {} [prodA]).2.page = 1 ∧
      (listProducts {} [prodA]).2.limit = 20 ∧
      (listProducts {} [prodA]).2.total
        = ([prodA].filter (fun p => matchesQuery {} p)).length ∧
      ([prodA].filter (fun p => matchesQuery {} p)).length
        ≤ (listProducts {} [prodA]).2.totalPages * 20 ∧
      (∀ mm, ([prodA].filter (fun p => matchesQuery {} p)).length ≤ mm * 20 →
        (listProducts {} [prodA]).2.totalPages ≤ mm) :=
  C7_marketplace_listing {} [prodA] (by decide) (by decide) (by decide)

end Vibe
